import Mathlib

/-!
Verification of the chainmind trade-execution and signal pipeline.

This file gives a shallow embedding, in Lean 4, of the core subsystems of the
repository:

* the signal extractor (src/unnamed/part_005): regex-driven extraction of
  trading signals from social posts, with confidence scoring and
  deduplication;
* the aggregator fallback chain of the buy endpoint (src/api/trade/buy.ts,
  getSwapQuote and handler), instrumented with a trace of external calls;
* the server-side trade service buyToken / sellToken (src/unnamed/part_001,
  mirrored by the sell handler in src/unnamed/part_009), likewise
  instrumented;
* the MEXC bracket-order route (src/unnamed/part_002 and
  src/server/mexc-api.ts placeTpSlOrders) and the OKX spot and leveraged
  entries with TP/SL (src/server/okx-api.ts buySpot, openLong, openShort).

JavaScript numbers are modelled as rationals (exact arithmetic); uint256 /
bigint chain quantities as Nat (with explicit Int subtraction where the
source subtracts bigints).  External HTTP / RPC responses are inputs
(environment records); every external call the code makes is recorded in an
event trace so that claims about "zero calls" or call ordering are provable.
-/

/-! ## A small regex engine

The signal extractor is driven by JavaScript regexes with the `gi` flags.
The patterns only use: literal characters, the classes `[a-z]`, `\d`, `\s`,
`[\s:@=]`, the quantifiers `?`, `*`, `+`, `{2,10}`, ordered alternation,
one capture group per pattern, non-capturing groups and the word boundary
`\b`.  The engine below implements exactly this fragment with JS semantics:
greedy quantifiers with backtracking, ordered alternation, leftmost match.
Case-insensitivity (`i` flag) is obtained by comparing lowercased
characters in the literal/class predicates, so captures keep their original
case, as in JS. -/

inductive RE : Type where
  | eps : RE
  | cls : (Char → Bool) → RE
  | seq : RE → RE → RE
  | alt : RE → RE → RE
  | star : RE → RE
  | opt : RE → RE
  | rep : RE → Nat → Nat → RE
  | grp : RE → RE
  | wb : RE

/-- Size of a regex, used only to compute a sufficient fuel bound. -/
def reSize : RE → Nat
  | RE.eps => 1
  | RE.cls _ => 1
  | RE.seq a b => 1 + reSize a + reSize b
  | RE.alt a b => 1 + reSize a + reSize b
  | RE.star a => 1 + reSize a
  | RE.opt a => 1 + reSize a
  | RE.rep a _ hi => 1 + (hi + 1) * (reSize a + 1)
  | RE.grp a => 1 + reSize a
  | RE.wb => 1

/-- JS word character (`\w`): ASCII letter, digit or underscore. -/
def wordChar (c : Char) : Bool := c.isAlpha || c.isDigit || c == '_'

/-- Is the character at index i (if any) a word character? -/
def isWordAt (t : List Char) (i : Nat) : Bool :=
  match t.get? i with
  | some c => wordChar c
  | none => false

/-- JS word boundary `\b` at position i of t. -/
def isBoundary (t : List Char) (i : Nat) : Bool :=
  (if i = 0 then false else isWordAt t (i - 1)) != isWordAt t i

/-- Backtracking matcher in continuation-passing style.  State: current
position and the span of capture group 1 (our patterns have exactly one
group).  The continuation receives the position after the current node.
Fuel bounds the depth of the call tree; it is chosen large enough for all
patterns in this file. -/
def reMatch : Nat → List Char → RE → Nat → Option (Nat × Nat) →
    (Nat → Option (Nat × Nat) → Option (Nat × Option (Nat × Nat))) →
    Option (Nat × Option (Nat × Nat))
  | 0, _, _, _, _, _ => none
  | Nat.succ _, _, RE.eps, i, cap, k => k i cap
  | Nat.succ _, t, RE.cls p, i, cap, k =>
      match t.get? i with
      | some c => if p c then k (i + 1) cap else none
      | none => none
  | Nat.succ fuel, t, RE.seq a b, i, cap, k =>
      reMatch fuel t a i cap (fun j c2 => reMatch fuel t b j c2 k)
  | Nat.succ fuel, t, RE.alt a b, i, cap, k =>
      match reMatch fuel t a i cap k with
      | some r => some r
      | none => reMatch fuel t b i cap k
  | Nat.succ fuel, t, RE.star a, i, cap, k =>
      match reMatch fuel t a i cap (fun j c2 =>
          if i < j then reMatch fuel t (RE.star a) j c2 k else none) with
      | some r => some r
      | none => k i cap
  | Nat.succ fuel, t, RE.opt a, i, cap, k =>
      match reMatch fuel t a i cap k with
      | some r => some r
      | none => k i cap
  | Nat.succ fuel, t, RE.rep a lo hi, i, cap, k =>
      match lo with
      | Nat.succ lo1 =>
          reMatch fuel t a i cap (fun j c2 => reMatch fuel t (RE.rep a lo1 (hi - 1)) j c2 k)
      | 0 =>
          match hi with
          | 0 => k i cap
          | Nat.succ hi1 =>
              match reMatch fuel t a i cap (fun j c2 =>
                  if i < j then reMatch fuel t (RE.rep a 0 hi1) j c2 k else none) with
              | some r => some r
              | none => k i cap
  | Nat.succ fuel, t, RE.grp a, i, cap, k =>
      reMatch fuel t a i cap (fun j _ => k j (some (i, j)))
  | Nat.succ _, t, RE.wb, i, cap, k =>
      if isBoundary t i then k i cap else none

/-- Try to match the regex at a fixed start position; on success return the
end position and the capture span. -/
def matchCaptureAt (t : List Char) (r : RE) (i : Nat) : Option (Nat × Option (Nat × Nat)) :=
  reMatch ((t.length + 2) * (reSize r + 2)) t r i none (fun j c => some (j, c))

/-- Leftmost match at or after position i: returns (start, end, capture). -/
def findFromAux : Nat → List Char → RE → Nat → Option (Nat × Nat × Option (Nat × Nat))
  | 0, _, _, _ => none
  | Nat.succ fuel, t, r, i =>
      match matchCaptureAt t r i with
      | some (e, cap) => some (i, e, cap)
      | none => if i < t.length then findFromAux fuel t r (i + 1) else none

/-- Substring of t given a capture span. -/
def captureChars (t : List Char) : Option (Nat × Nat) → List Char
  | some (cs, ce) => (t.drop cs).take (ce - cs)
  | none => []

/-- The `while (pattern.exec(text))` loop of a global (`g`) regex: collect
all group-1 captures, resuming each search at the previous match end.  (All
patterns in the source match at least two characters, so the JS loop always
advances; the `li + 1` fallback is unreachable for them.) -/
def execAllAux : Nat → List Char → RE → Nat → List (List Char)
  | 0, _, _, _ => []
  | Nat.succ fuel, t, r, li =>
      match findFromAux (t.length + 2) t r li with
      | none => []
      | some (_, e, cap) =>
          captureChars t cap :: execAllAux fuel t r (if li < e then e else li + 1)

/-- All group-1 captures of a global regex over a text. -/
def execCaptures (r : RE) (t : List Char) : List String :=
  (execAllAux (t.length + 2) t r 0).map String.mk

/-- The call `text.match(regex)` for a non-global regex: group 1 of the leftmost
match, if any. -/
def firstCapture (r : RE) (t : List Char) : Option String :=
  (findFromAux (t.length + 2) t r 0).map (fun x => String.mk (captureChars t x.2.2))

/-! ### Pattern combinators mirroring the source regex syntax -/

/-- Concatenation of a list of regexes. -/
def reCat (l : List RE) : RE := l.foldr RE.seq RE.eps

/-- Ordered alternation of a list of regexes (JS `a|b|c`). -/
def reAlt : List RE → RE
  | [] => RE.eps
  | [x] => x
  | x :: y :: rest => RE.alt x (reAlt (y :: rest))

/-- A case-insensitive literal character. -/
def reChar (a : Char) : RE := RE.cls (fun c => c.toLower == a)

/-- A case-insensitive literal string. -/
def lit (s : String) : RE := reCat (s.toList.map reChar)

/-- The class `[a-z]` under the `i` flag. -/
def azClass : RE := RE.cls (fun c => 97 ≤ c.toLower.toNat && c.toLower.toNat ≤ 122)

/-- The class `\d`. -/
def digitClass : RE := RE.cls (fun c => 48 ≤ c.toNat && c.toNat ≤ 57)

/-- The class `\s` (whitespace). -/
def spaceClass : RE :=
  RE.cls (fun c => c == ' ' || c == '\t' || c == '\n' || c == '\r' || c == '\x0b' || c == '\x0c')

/-- Pattern `\s+` -/
def wsP : RE := RE.seq spaceClass (RE.star spaceClass)

/-- The capture group `(\$?[a-z]{2,10})`. -/
def tokenGroup : RE :=
  RE.grp (reCat [RE.opt (RE.cls (fun c => c == '$')), RE.rep azClass 2 10])

/-- The capture group `(\$[a-z]{2,10})`. -/
def dTokenGroup : RE :=
  RE.grp (reCat [RE.cls (fun c => c == '$'), RE.rep azClass 2 10])

/-- Pattern `\bVERB\s+(\$?[a-z]{2,10})\b` -/
def verbPat (verb : String) : RE :=
  reCat [RE.wb, lit verb, wsP, tokenGroup, RE.wb]

/-- Pattern `\bVERB\s+(?:FILLER\s+)?(\$?[a-z]{2,10})\b` -/
def verbFillPat (verb filler : String) : RE :=
  reCat [RE.wb, lit verb, wsP, RE.opt (reCat [lit filler, wsP]), tokenGroup, RE.wb]

/-- Pattern `\bVERB\s+(?:F1\s+)?(?:F2\s+)?(\$?[a-z]{2,10})\b` -/
def verbFill2Pat (verb f1 f2 : String) : RE :=
  reCat [RE.wb, lit verb, wsP, RE.opt (reCat [lit f1, wsP]),
    RE.opt (reCat [lit f2, wsP]), tokenGroup, RE.wb]

/-- Pattern `(\$[a-z]{2,10})\s+(?:ALT1|ALT2|...)` -/
def sentimentPat (alts : List String) : RE :=
  reCat [dTokenGroup, wsP, reAlt (alts.map lit)]

/-- Pattern `(?:V1|V2|...)\s+(?:on\s+)?(\$[a-z]{2,10})` -/
def verbLeadPat (verbs : List String) : RE :=
  reCat [reAlt (verbs.map lit), wsP, RE.opt (reCat [lit "on", wsP]), dTokenGroup]

/-- Pattern `\btake\s+profit\s+(?:on\s+)?(\$?[a-z]{2,10})\b` -/
def takeProfitPat : RE :=
  reCat [RE.wb, lit "take", wsP, lit "profit", wsP, RE.opt (reCat [lit "on", wsP]),
    tokenGroup, RE.wb]

/-- BUY_PATTERNS of src/unnamed/part_005, in source order. -/
def BUY_PATTERNS : List RE := [
  verbPat "buy", verbPat "buying", verbPat "bought", verbPat "long", verbPat "longing",
  verbFillPat "bullish" "on", verbPat "accumulate", verbPat "accumulating",
  verbFill2Pat "load" "up" "on", verbPat "loading",
  verbFillPat "entry" "on",
  verbFillPat "ape" "into", verbFillPat "aping" "into", verbFillPat "aped" "into",
  verbFillPat "fomo" "into",
  verbFillPat "stack" "more", verbPat "stacking",
  verbFillPat "grab" "some",
  verbFillPat "scoop" "up", verbPat "scooping",
  sentimentPat ["to the moon", "moon", "pump", "pumping", "going up", "breaking out",
    "breakout", "ripping", "mooning", "sending", "flying"],
  sentimentPat ["looks good", "looking good", "bullish", "strong", "ready", "primed",
    "set to run", "about to run"],
  verbLeadPat ["bullish", "long", "buy", "grab", "load", "stack"],
  reCat [dTokenGroup, wsP, reAlt [reCat [digitClass, RE.star digitClass, reChar 'x'],
    lit "100x", lit "10x", lit "5x", lit "2x", lit "will pump", lit "gonna pump",
    lit "about to pump"]],
  sentimentPat ["easy money", "free money", "alpha", "gem", "hidden gem", "undervalued"]]

/-- SELL_PATTERNS of src/unnamed/part_005, in source order. -/
def SELL_PATTERNS : List RE := [
  verbPat "sell", verbPat "selling", verbPat "sold", verbPat "short", verbPat "shorting",
  verbFillPat "bearish" "on", verbPat "exit", verbPat "exiting", verbPat "dump",
  verbPat "dumping",
  takeProfitPat,
  verbFillPat "tp" "on",
  verbPat "close", verbPat "closing", verbPat "fade", verbPat "fading",
  sentimentPat ["dump", "dumping", "crashing", "going down", "tanking", "dying", "dead",
    "rug", "rugging"],
  sentimentPat ["looks weak", "looking weak", "bearish", "overbought", "topped", "topping"],
  verbLeadPat ["bearish", "short", "sell", "dump", "fade"]]

/-- TOKEN_MENTION_PATTERN: `/\$([a-z]{2,10})\b/gi`. -/
def TOKEN_MENTION_PATTERN : RE :=
  reCat [RE.cls (fun c => c == '$'), RE.grp (RE.rep azClass 2 10), RE.wb]

/-! ## Signal extractor data model (src/unnamed/part_005) -/

/-- The `source` field of a TradingSignal. -/
structure PostSource where
  postId : String
  title : String
  author : String
  upvotes : Int
deriving DecidableEq, Repr

/-- TradingSignal of src/unnamed/part_005.  `action` is the string
"buy" or "sell" as in the source; `confidence` is a JS number, modelled
exactly as a rational. -/
structure TradingSignal where
  action : String
  token : String
  amount : Option String
  tp : Option String
  sl : Option String
  confidence : ℚ
  source : PostSource
deriving DecidableEq, Repr

/-- The post shape consumed by parseSignalsFromPost. -/
structure Post where
  id : String
  title : String
  content : Option String
  authorName : String
  upvotes : Int
  downvotes : Option Int
deriving DecidableEq, Repr

/-- KNOWN_TOKENS of src/unnamed/part_005. -/
def KNOWN_TOKENS : List String := [
  "BTC", "ETH", "SOL", "DOGE", "XRP", "ADA", "AVAX", "DOT", "MATIC", "LINK",
  "UNI", "AAVE", "ATOM", "FTM", "NEAR", "APT", "ARB", "OP", "SUI", "SEI",
  "BONK", "PEPE", "SHIB", "WIF", "FLOKI", "MEME", "BOME", "SLERF", "POPCAT",
  "JUP", "PYTH", "JTO", "TIA", "INJ", "RENDER", "FET", "TAO", "WLD", "ARKM",
  "ONDO", "ENA", "ETHFI", "ALT", "STRK", "MANTA", "DYM", "PIXEL", "PORTAL",
  "LTC", "BCH", "ETC", "FIL", "ICP", "HBAR", "VET", "ALGO", "EGLD", "SAND",
  "MANA", "AXS", "GMT", "APE", "GALA", "ENJ", "IMX", "BLUR", "MAGIC", "PRIME",
  "STX", "ORDI", "SATS", "RATS", "MTRX", "AI", "GPT", "AGIX", "OCEAN", "RNDR"]

/-- COMMON_WORDS of src/unnamed/part_005 (stop list). -/
def COMMON_WORDS : List String := [
  "THE", "AND", "FOR", "ARE", "BUT", "NOT", "YOU", "ALL", "CAN", "HER",
  "WAS", "ONE", "OUR", "OUT", "HAS", "HIS", "HOW", "ITS", "MAY", "NEW",
  "NOW", "OLD", "SEE", "WAY", "WHO", "BOY", "DID", "GET", "LET", "PUT",
  "SAY", "SHE", "TOO", "USE", "USD", "USDT", "COIN", "TOKEN", "THIS",
  "THAT", "WITH", "FROM", "HAVE", "BEEN", "WILL", "WHAT", "WHEN", "YOUR",
  "JUST", "MORE", "SOME", "THAN", "THEM", "THEN", "VERY", "WOULD", "ABOUT"]

/-- JS Math.min on numbers, as an executable definition on ℚ. -/
def mathMin (a b : ℚ) : ℚ := if a ≤ b then a else b

/-- JS Math.max on numbers, as an executable definition on ℚ. -/
def mathMax (a b : ℚ) : ℚ := if a ≤ b then b else a

/-- Strip one leading `$` (the regex `/^\$/`). -/
def stripDollar : List Char → List Char
  | '$' :: rest => rest
  | l => l

/-- cleanToken: strip one leading `$`, uppercase. -/
def cleanToken (token : String) : String :=
  String.mk ((stripDollar token.toList).map Char.toUpper)

/-- isValidToken of src/unnamed/part_005: length in [2,10] after cleaning,
not a common word, all characters in `[A-Z]` (the test `/^[A-Z]+$/`). -/
def isValidToken (token : String) : Bool :=
  let clean := cleanToken token
  if clean.toList.length < 2 || 10 < clean.toList.length then false
  else if COMMON_WORDS.contains clean then false
  else if !(clean.toList.all (fun c => 65 ≤ c.toNat && c.toNat ≤ 90)) then false
  else true

/-- isKnownToken of src/unnamed/part_005. -/
def isKnownToken (token : String) : Bool :=
  KNOWN_TOKENS.contains (cleanToken token)

/-- The regex of extractTpSl for take-profit:
`/(?:tp|take\s*profit|target|pt)[\s:@=]*\$?(\d+\.?\d*)/i`. -/
def tpRegex : RE :=
  reCat [reAlt [lit "tp", reCat [lit "take", RE.star spaceClass, lit "profit"],
      lit "target", lit "pt"],
    RE.star (RE.cls (fun c => c == ' ' || c == '\t' || c == '\n' || c == '\r' ||
      c == '\x0b' || c == '\x0c' || c == ':' || c == '@' || c == '=')),
    RE.opt (RE.cls (fun c => c == '$')),
    RE.grp (reCat [digitClass, RE.star digitClass, RE.opt (reChar '.'),
      RE.star digitClass])]

/-- The regex of extractTpSl for stop-loss:
`/(?:sl|stop\s*loss|stop|stoploss)[\s:@=]*\$?(\d+\.?\d*)/i`. -/
def slRegex : RE :=
  reCat [reAlt [lit "sl", reCat [lit "stop", RE.star spaceClass, lit "loss"],
      lit "stop", lit "stoploss"],
    RE.star (RE.cls (fun c => c == ' ' || c == '\t' || c == '\n' || c == '\r' ||
      c == '\x0b' || c == '\x0c' || c == ':' || c == '@' || c == '=')),
    RE.opt (RE.cls (fun c => c == '$')),
    RE.grp (reCat [digitClass, RE.star digitClass, RE.opt (reChar '.'),
      RE.star digitClass])]

/-- extractTpSl of src/unnamed/part_005. -/
def extractTpSl (text : String) : Option String × Option String :=
  (firstCapture tpRegex text.toList, firstCapture slRegex text.toList)

/-- The regex of extractAmount:
`/(\$?\d+\.?\d*)\s*(?:usdt|usd|\$|dollars?|worth)/i`. -/
def amountRegex : RE :=
  reCat [RE.grp (reCat [RE.opt (RE.cls (fun c => c == '$')), digitClass,
      RE.star digitClass, RE.opt (reChar '.'), RE.star digitClass]),
    RE.star spaceClass,
    reAlt [lit "usdt", lit "usd", lit "$",
      reCat [lit "dollar", RE.opt (reChar 's')], lit "worth"]]

/-- extractAmount of src/unnamed/part_005 (the `.replace(/\$/g, "")` is the
filter dropping `$`). -/
def extractAmount (text : String) : Option String :=
  (firstCapture amountRegex text.toList).map
    (fun s => String.mk (s.toList.filter (fun c => c != '$')))

/-- The text blob scanned by parseSignalsFromPost:
`` `${post.title} ${post.content || ""}` ``. -/
def postText (post : Post) : String :=
  post.title ++ " " ++ (post.content.getD "")

/-- Base confidence: `Math.min(0.9, Math.max(0.1, 0.3 + netVotes / 50))`
with `netVotes = upvotes - (downvotes || 0)`. -/
def baseConfidence (post : Post) : ℚ :=
  mathMin (9/10 : ℚ)
    (mathMax (1/10) (3/10 + ((post.upvotes - post.downvotes.getD 0 : Int) : ℚ) / 50))

/-- The source record attached to every signal of a post. -/
def mkSource (post : Post) : PostSource :=
  { postId := post.id, title := post.title, author := post.authorName,
    upvotes := post.upvotes }

/-- One intent-pattern signal: confidence `min(0.95, base (+ 0.2 if known))`,
with tp/sl/amount extracted from the whole post text. -/
def mkIntentSignal (post : Post) (action token : String) : TradingSignal :=
  let base := baseConfidence post
  let conf := if isKnownToken token then base + 2/10 else base
  { action := action, token := cleanToken token,
    amount := extractAmount (postText post),
    tp := (extractTpSl (postText post)).1,
    sl := (extractTpSl (postText post)).2,
    confidence := mathMin (95/100) conf,
    source := mkSource post }

/-- The two intent loops: for each pattern, for each exec capture, push a
signal when the token is truthy and valid. -/
def signalsForPatterns (post : Post) (patterns : List RE) (action : String) :
    List TradingSignal :=
  patterns.flatMap (fun p =>
    (execCaptures p (postText post).toList).filterMap (fun token =>
      if token != "" && isValidToken token then some (mkIntentSignal post action token)
      else none))

/-- The intent signals of a post: buy loops first, then sell loops. -/
def intentSignals (post : Post) : List TradingSignal :=
  signalsForPatterns post BUY_PATTERNS "buy" ++
    signalsForPatterns post SELL_PATTERNS "sell"

/-- The default buy signal pushed for a bare known-token mention:
`confidence = baseConfidence * 0.7`, no amount/tp/sl. -/
def mentionSignal (post : Post) (token : String) : TradingSignal :=
  { action := "buy", token := cleanToken token, amount := none,
    tp := none, sl := none,
    confidence := baseConfidence post * (7/10),
    source := mkSource post }

/-- One step of the mention loop: a known `$TOKEN` mention is added as a
default buy signal only when no signal gathered so far (intent or earlier
mention) has the same token; the check compares the token only, never the
action. -/
def mentionStep (post : Post) (sigs : List TradingSignal) (token : String) :
    List TradingSignal :=
  if token != "" && isKnownToken token &&
      !(sigs.any (fun s => s.token == cleanToken token)) then
    sigs ++ [mentionSignal post token]
  else sigs

/-- The mention loop appended after the intent loops. -/
def withMentionSignals (post : Post) (sigs : List TradingSignal) : List TradingSignal :=
  (execCaptures TOKEN_MENTION_PATTERN (postText post).toList).foldl (mentionStep post) sigs

/-- The dedup key: `` `${signal.action}-${signal.token}` ``. -/
def sigKey (s : TradingSignal) : String := s.action ++ "-" ++ s.token

/-- The final per-post dedup: keep the first occurrence of each key. -/
def dedupAux : List String → List TradingSignal → List TradingSignal
  | _, [] => []
  | seen, s :: rest =>
    if seen.contains (sigKey s) then dedupAux seen rest
    else s :: dedupAux (sigKey s :: seen) rest

/-- Deduplicate by `(action, token)` key, first occurrence wins. -/
def dedupByKey (sigs : List TradingSignal) : List TradingSignal := dedupAux [] sigs

/-- parseSignalsFromPost of src/unnamed/part_005. -/
def parseSignalsFromPost (post : Post) : List TradingSignal :=
  dedupByKey (withMentionSignals post (intentSignals post))

/-- The call `tokenActionMap.get(key)` on the insertion-ordered association list
modelling the JS Map. -/
def mapGet (m : List (String × TradingSignal)) (k : String) : Option TradingSignal :=
  match m with
  | [] => none
  | kv :: rest => if kv.1 == k then some kv.2 else mapGet rest k

/-- The call `tokenActionMap.set(key, v)`: overwrite in place (keeping the original
insertion slot, as a JS Map does) or append. -/
def mapSet (m : List (String × TradingSignal)) (k : String) (v : TradingSignal) :
    List (String × TradingSignal) :=
  match m with
  | [] => [(k, v)]
  | kv :: rest => if kv.1 == k then (k, v) :: rest else kv :: mapSet rest k v

/-- One step of the parseSignalsFromFeed dedup loop:
`if (!existing || signal.confidence > existing.confidence) map.set(key, signal)`. -/
def upsertByConfidence (m : List (String × TradingSignal)) (s : TradingSignal) :
    List (String × TradingSignal) :=
  match mapGet m (sigKey s) with
  | none => mapSet m (sigKey s) s
  | some existing =>
      if s.confidence > existing.confidence then mapSet m (sigKey s) s else m

/-- Stable insertion into a descending-by-confidence list. -/
def insertDesc (s : TradingSignal) : List TradingSignal → List TradingSignal
  | [] => [s]
  | t :: ts => if s.confidence > t.confidence then s :: t :: ts else t :: insertDesc s ts

/-- Stable sort descending by confidence (the JS `sort((a, b) =>
b.confidence - a.confidence)`). -/
def sortByConfidenceDesc (l : List TradingSignal) : List TradingSignal :=
  l.foldl (fun acc s => insertDesc s acc) []

/-- parseSignalsFromFeed of src/unnamed/part_005: concatenate the per-post
signals, deduplicate across posts keeping the strictly-higher-confidence
instance, sort descending by confidence. -/
def parseSignalsFromFeed (posts : List Post) : List TradingSignal :=
  let allSignals := posts.flatMap parseSignalsFromPost
  let m := allSignals.foldl upsertByConfidence []
  sortByConfidenceDesc (m.map Prod.snd)

/-! ## String containment (JS `String.prototype.includes`) -/

/-- JS `s.includes(sub)`: some suffix of s starts with sub. -/
def containsSubstr (s sub : String) : Bool :=
  (List.range (s.toList.length + 1)).any (fun i => sub.toList.isPrefixOf (s.toList.drop i))

/-! ## The aggregator fallback chain of src/api/trade/buy.ts (getSwapQuote)

Each provider block is a two-step HTTP protocol (route/quote then build)
wrapped in a try/catch; a provider yields a usable quote exactly when every
response is ok and carries the required fields.  The environment collapses
the upstream responses of each provider to `none` (no usable built quote: non-ok
response, missing field, or thrown error) or `some` payload with the fields
the code reads from the responses. -/

/-- The four aggregator providers, in source order of the try blocks. -/
inductive Provider : Type where
  | kyberswap : Provider
  | odos : Provider
  | paraswap : Provider
  | oneinch : Provider
deriving DecidableEq, Repr

/-- Payload of a successful Kyberswap route+build:
`routeData.data.routerAddress` and `buildData.data.data`. -/
structure KyberPayload where
  routerAddress : String
  buildData : String
deriving DecidableEq, Repr

/-- Payload of a successful Odos / ParaSwap / 1inch quote+build: the
transaction fields the code forwards (`to`, `data`, optional `value`). -/
structure TxPayload where
  toAddress : String
  data : String
  value : Option Nat
deriving DecidableEq, Repr

/-- Upstream responses for one getSwapQuote call. -/
structure AggEnv where
  kyber : Option KyberPayload
  odos : Option TxPayload
  paraswap : Option TxPayload
  oneinch : Option TxPayload
deriving DecidableEq, Repr

/-- The swap transaction returned by getSwapQuote:
`{to, data, value, type}`. -/
structure SwapTx where
  toAddress : String
  data : String
  value : Option Nat
  type : String
deriving DecidableEq, Repr

/-- getSwapQuote of src/api/trade/buy.ts: try Kyberswap, then Odos, then
ParaSwap, then 1inch; return the first usable built quote; `null` when all
fail.  The second component records the providers attempted, in order.
For Kyberswap the transaction value is the sell amount; the other providers
supply their own value field. -/
def getSwapQuote (env : AggEnv) (sellAmount : Nat) : Option SwapTx × List Provider :=
  match env.kyber with
  | some k =>
      (some { toAddress := k.routerAddress, data := k.buildData, value := some sellAmount,
              type := "kyberswap" }, [Provider.kyberswap])
  | none =>
    match env.odos with
    | some o =>
        (some { toAddress := o.toAddress, data := o.data, value := o.value, type := "odos" },
         [Provider.kyberswap, Provider.odos])
    | none =>
      match env.paraswap with
      | some p =>
          (some { toAddress := p.toAddress, data := p.data, value := p.value, type := "paraswap" },
           [Provider.kyberswap, Provider.odos, Provider.paraswap])
      | none =>
        match env.oneinch with
        | some i =>
            (some { toAddress := i.toAddress, data := i.data, value := i.value, type := "1inch" },
             [Provider.kyberswap, Provider.odos, Provider.paraswap, Provider.oneinch])
        | none =>
            (none, [Provider.kyberswap, Provider.odos, Provider.paraswap, Provider.oneinch])

/-- The fixed provider priority order stated by the spec: primary
(Kyberswap), secondary (Odos), tertiary (ParaSwap), quaternary (1inch). -/
def providerPriority : List Provider :=
  [Provider.kyberswap, Provider.odos, Provider.paraswap, Provider.oneinch]

/-- The usable built quote a given provider would yield, per the construction
in the source.  Modelled from the spec for comparison with getSwapQuote. -/
def providerQuote (env : AggEnv) (sellAmount : Nat) : Provider → Option SwapTx
  | Provider.kyberswap => env.kyber.map (fun k =>
      { toAddress := k.routerAddress, data := k.buildData, value := some sellAmount,
        type := "kyberswap" })
  | Provider.odos => env.odos.map (fun o =>
      { toAddress := o.toAddress, data := o.data, value := o.value, type := "odos" })
  | Provider.paraswap => env.paraswap.map (fun p =>
      { toAddress := p.toAddress, data := p.data, value := p.value, type := "paraswap" })
  | Provider.oneinch => env.oneinch.map (fun i =>
      { toAddress := i.toAddress, data := i.data, value := i.value, type := "1inch" })

/-- Prefix of a list up to and including the first element satisfying p
(the whole list if none does).  Spec-side: the providers a strict
first-success priority chain attempts. -/
def takeToFirst (p : α → Bool) : List α → List α
  | [] => []
  | x :: xs => if p x then [x] else x :: takeToFirst p xs

/-- Spec-side: the providers attempted by a strict priority chain. -/
def specAttempted (env : AggEnv) (sellAmount : Nat) : List Provider :=
  takeToFirst (fun p => (providerQuote env sellAmount p).isSome) providerPriority

/-- Spec-side: the quote of the first provider in priority order that
yields one. -/
def specFirstQuote (env : AggEnv) (sellAmount : Nat) : Option SwapTx :=
  (providerPriority.find? (fun p => (providerQuote env sellAmount p).isSome)).bind
    (providerQuote env sellAmount)

/-! ## The buy endpoint handler of src/api/trade/buy.ts -/

/-- External calls made by the buy handler, in order. -/
inductive BuyEv : Type where
  | getBalance : BuyEv
  | aggAttempt : Provider → BuyEv
  | sendTx : String → BuyEv
  | waitReceipt : BuyEv
  | readSymbol : BuyEv
  | readDecimals : BuyEv
  | readBalanceOf : BuyEv
deriving DecidableEq, Repr

/-- Constant `parseEther("0.0005")`: the fixed gas buffer, in wei. -/
def GAS_BUFFER : Nat := 500000000000000

/-- Constant `parseEther("0.001")`: the default buy amount, in wei. -/
def DEFAULT_BUY_WEI : Nat := 1000000000000000

/-- The Clanker dev-buy contract address. -/
def CLANKER_DEVBUY : String := "0x1331f0788F9c08C8F38D52c7a1152250A9dE00be"

/-- The distinct return sites of the buy handler (each carries the data the
corresponding res.json carries; formatUnits string rendering of amounts is
left to the presentation layer, the raw wei value and decimals are kept). -/
inductive BuyOutcome : Type where
  /-- Status 400 "Insufficient ETH. You have ... but need ... + gas" (pre-check). -/
  | insufficientEth : BuyOutcome
  /-- Status 400 "Token not tradeable via our API yet..." with a clanker.world
  guidance link (the dev-buy fallback also failed). -/
  | notTradeable : String → BuyOutcome
  /-- Status 400 "Insufficient ETH for gas + swap" (catch on "insufficient funds"). -/
  | insufficientFundsCaught : BuyOutcome
  /-- Status 400 "No liquidity found..." (catch on "No swap route" / "No route"). -/
  | noLiquidityCaught : BuyOutcome
  /-- Status 500 with the underlying message. -/
  | otherError : String → BuyOutcome
  /-- success: transactionHash, via, token balance in raw units, decimals,
  symbol. -/
  | ok : String → String → Nat → Nat → String → BuyOutcome
deriving DecidableEq, Repr

/-- The outer catch of the buy handler: string-matched classification. -/
def classifyBuyHandlerError (msg : String) : BuyOutcome :=
  if containsSubstr msg "insufficient funds" then BuyOutcome.insufficientFundsCaught
  else if containsSubstr msg "No swap route" || containsSubstr msg "No route" then
    BuyOutcome.noLiquidityCaught
  else BuyOutcome.otherError msg

/-- Chain and upstream behaviour for one buy handler call. -/
structure BuyHandlerEnv where
  balance : Nat
  agg : AggEnv
  swapSendResult : Except String String
  devbuySendResult : Except String String
  receiptResult : Except String Unit
  symbolResult : Except String String
  decimalsResult : Except String Nat
  tokenBalanceResult : Except String Nat
deriving Repr

/-- The tail of the buy handler after a transaction was submitted: wait for
the receipt, read symbol and decimals (one try block, defaults "TOKEN"/18),
read the token balance of the buyer, return success. -/
def buyHandlerTail (env : BuyHandlerEnv) (hash via : String) (evs : List BuyEv) :
    BuyOutcome × List BuyEv :=
  let evs := evs ++ [BuyEv.waitReceipt]
  match env.receiptResult with
  | Except.error msg => (classifyBuyHandlerError msg, evs)
  | Except.ok _ =>
    match env.symbolResult with
    | Except.error _ =>
      let evs := evs ++ [BuyEv.readSymbol, BuyEv.readBalanceOf]
      match env.tokenBalanceResult with
      | Except.error msg => (classifyBuyHandlerError msg, evs)
      | Except.ok bal => (BuyOutcome.ok hash via bal 18 "TOKEN", evs)
    | Except.ok symbol =>
      match env.decimalsResult with
      | Except.error _ =>
        let evs := evs ++ [BuyEv.readSymbol, BuyEv.readDecimals, BuyEv.readBalanceOf]
        match env.tokenBalanceResult with
        | Except.error msg => (classifyBuyHandlerError msg, evs)
        | Except.ok bal => (BuyOutcome.ok hash via bal 18 symbol, evs)
      | Except.ok decimals =>
        let evs := evs ++ [BuyEv.readSymbol, BuyEv.readDecimals, BuyEv.readBalanceOf]
        match env.tokenBalanceResult with
        | Except.error msg => (classifyBuyHandlerError msg, evs)
        | Except.ok bal => (BuyOutcome.ok hash via bal decimals symbol, evs)

/-- Resolve `parseEther(amountEth || "0.001")`: the requested buy amount in wei. -/
def requestedWei : Option ℚ → Nat
  | some q => (q * 10 ^ 18).floor.toNat
  | none => DEFAULT_BUY_WEI

/-- The buy handler of src/api/trade/buy.ts from the balance check on
(request parsing and wallet lookup precede this slice).  `amountEth` is the
amountEth of the request (parseEther applied; `none` means absent, defaulting to
0.001 ETH).  Steps: balance pre-check with the fixed gas buffer, aggregator
chain, send (aggregator swap, else Clanker dev-buy fallback with its own
catch returning the guidance link), receipt, token info reads. -/
def buyHandler (env : BuyHandlerEnv) (tokenAddress : String) (amountEth : Option ℚ) :
    BuyOutcome × List BuyEv :=
  let amountIn : Nat := requestedWei amountEth
  if env.balance < amountIn + GAS_BUFFER then
    (BuyOutcome.insufficientEth, [BuyEv.getBalance])
  else
    let quoted := getSwapQuote env.agg amountIn
    let evs := BuyEv.getBalance :: quoted.2.map BuyEv.aggAttempt
    match quoted.1 with
    | some sd =>
      let evs := evs ++ [BuyEv.sendTx sd.toAddress]
      match env.swapSendResult with
      | Except.error msg => (classifyBuyHandlerError msg, evs)
      | Except.ok hash => buyHandlerTail env hash sd.type evs
    | none =>
      let evs := evs ++ [BuyEv.sendTx CLANKER_DEVBUY]
      match env.devbuySendResult with
      | Except.error _ =>
          (BuyOutcome.notTradeable ("https://clanker.world/clanker/" ++ tokenAddress), evs)
      | Except.ok hash => buyHandlerTail env hash "clanker" evs

/-! ## The server-side trade service (src/unnamed/part_001; the sell API
handler of src/unnamed/part_009 runs the identical post-wallet flow) -/

/-- External calls made by buyToken / sellToken, in order. -/
inductive TradeEv : Type where
  | kyberRoutes : TradeEv
  | kyberBuild : TradeEv
  | readDecimals : TradeEv
  | readBalanceOf : TradeEv
  | writeApprove : String → Int → TradeEv
  | getNativeBalance : TradeEv
  | sendTx : String → Nat → TradeEv
  | waitReceipt : String → TradeEv
deriving DecidableEq, Repr

/-- Field `buildData.data` of the Kyberswap build step: the fields the trade
service reads. -/
structure KyberBuild where
  routerAddress : String
  data : String
deriving DecidableEq, Repr

/-- Upstream responses of the two-step Kyberswap getSwapQuote of
src/unnamed/part_001. -/
structure KyberQuoteEnv where
  routesOk : Bool
  routesStatus : Nat
  hasRouteSummary : Bool
  buildOk : Bool
  buildStatus : Nat
  build : KyberBuild
deriving DecidableEq, Repr

/-- getSwapQuote of src/unnamed/part_001: fetch the route (throw
"Failed to get swap route: status" on non-ok, "No route found for this
swap" when data.routeSummary is absent), then build (throw
"Failed to build swap: status" on non-ok). -/
def getSwapQuoteKyber (env : KyberQuoteEnv) : Except String KyberBuild × List TradeEv :=
  if !env.routesOk then
    (Except.error ("Failed to get swap route: " ++ toString env.routesStatus),
     [TradeEv.kyberRoutes])
  else if !env.hasRouteSummary then
    (Except.error "No route found for this swap", [TradeEv.kyberRoutes])
  else if !env.buildOk then
    (Except.error ("Failed to build swap: " ++ toString env.buildStatus),
     [TradeEv.kyberRoutes, TradeEv.kyberBuild])
  else (Except.ok env.build, [TradeEv.kyberRoutes, TradeEv.kyberBuild])

/-- The distinct return sites of buyToken. -/
inductive BuyTokenOutcome : Type where
  /-- Message "Insufficient funds. Add more ETH to your wallet." -/
  | insufficientFunds : BuyTokenOutcome
  /-- Message "No liquidity found for this token yet. Try again later." -/
  | noLiquidity : BuyTokenOutcome
  /-- Message "Buy failed: ..." -/
  | otherError : String → BuyTokenOutcome
  /-- success: transactionHash, token balance in raw units, decimals. -/
  | ok : String → Nat → Nat → BuyTokenOutcome
deriving DecidableEq, Repr

/-- The catch of buyToken: substring classification of the message. -/
def classifyBuyTokenError (msg : String) : BuyTokenOutcome :=
  if containsSubstr msg "insufficient funds" || containsSubstr msg "exceeds the balance" then
    BuyTokenOutcome.insufficientFunds
  else if containsSubstr msg "No route found" then BuyTokenOutcome.noLiquidity
  else BuyTokenOutcome.otherError ("Buy failed: " ++ msg)

/-- Chain and upstream behaviour for one buyToken call.  `walletBalance` is
the native balance of the wallet: buyToken never reads it (there is no balance
pre-check in src/unnamed/part_001); it only shapes which error the chain
raises at submission. -/
structure BuyTokenEnv where
  walletBalance : Nat
  quote : KyberQuoteEnv
  sendResult : Except String String
  receiptResult : Except String Unit
  decimalsValue : Nat
  balanceValue : Nat
deriving Repr

/-- buyToken of src/unnamed/part_001: quote (Kyberswap two-step), submit the
value-carrying swap transaction, wait for the receipt, read decimals and the
post-trade token balance.  No balance pre-check: any insufficient-funds
condition only surfaces as a thrown submission error, classified by the
catch. -/
def buyToken (env : BuyTokenEnv) (amountWei : Nat) : BuyTokenOutcome × List TradeEv :=
  match getSwapQuoteKyber env.quote with
  | (Except.error msg, evs) => (classifyBuyTokenError msg, evs)
  | (Except.ok sb, evs) =>
    let evs := evs ++ [TradeEv.sendTx sb.routerAddress amountWei]
    match env.sendResult with
    | Except.error msg => (classifyBuyTokenError msg, evs)
    | Except.ok hash =>
      let evs := evs ++ [TradeEv.waitReceipt hash]
      match env.receiptResult with
      | Except.error msg => (classifyBuyTokenError msg, evs)
      | Except.ok _ =>
        let evs := evs ++ [TradeEv.readDecimals, TradeEv.readBalanceOf]
        (BuyTokenOutcome.ok hash env.balanceValue env.decimalsValue, evs)

/-- The distinct return sites of sellToken. -/
inductive SellOutcome : Type where
  /-- Message "No tokens to sell" (the zero-amount short-circuit). -/
  | nothingToSell : SellOutcome
  /-- Message "Insufficient funds for gas. Add ETH to your wallet." -/
  | insufficientGas : SellOutcome
  /-- Message "No tokens to sell." (catch re-classification; unreachable here since
  the short-circuit returns instead of throwing). -/
  | nothingToSellCaught : SellOutcome
  /-- Message "No liquidity found for this token yet." -/
  | noLiquidity : SellOutcome
  /-- Message "Sell failed: ..." -/
  | otherError : String → SellOutcome
  /-- success: transactionHash, ETH received in wei (clamped at 0). -/
  | ok : String → Nat → SellOutcome
deriving DecidableEq, Repr

/-- The catch of sellToken: substring classification of the message. -/
def classifySellError (msg : String) : SellOutcome :=
  if containsSubstr msg "insufficient funds" || containsSubstr msg "exceeds the balance" then
    SellOutcome.insufficientGas
  else if containsSubstr msg "No tokens to sell" then SellOutcome.nothingToSellCaught
  else if containsSubstr msg "No route found" then SellOutcome.noLiquidity
  else SellOutcome.otherError ("Sell failed: " ++ msg)

/-- The amount argument of sellToken: "all" or a decimal number (the
`parseFloat(amount)` of the source, exact as a rational). -/
inductive SellAmount : Type where
  | all : SellAmount
  | num : ℚ → SellAmount
deriving DecidableEq, Repr

/-- Chain and upstream behaviour for one sellToken call. -/
structure SellEnv where
  decimalsValue : Nat
  tokenBalance : Nat
  quote : KyberQuoteEnv
  approveResult : Except String String
  approveReceipt : Except String Unit
  ethBefore : Nat
  sendResult : Except String String
  swapReceipt : Except String Unit
  ethAfter : Nat
deriving Repr

/-- The resolved sell amount:
`amount === "all" ? currentBalance : BigInt(Math.floor(parseFloat(amount) * 10 ** decimals))`. -/
def resolveSellAmount (env : SellEnv) : SellAmount → Int
  | SellAmount.all => env.tokenBalance
  | SellAmount.num q => (q * 10 ^ env.decimalsValue).floor

/-- sellToken of src/unnamed/part_001 (the sell handler of
src/unnamed/part_009 is the same flow): read decimals and the live token
balance, resolve the amount, short-circuit "No tokens to sell" on zero,
quote, approve the router and wait for the approval receipt, read the
native balance, submit the swap, wait, read the native balance again and
report the clamped delta. -/
def sellToken (env : SellEnv) (amount : SellAmount) : SellOutcome × List TradeEv :=
  let evs := [TradeEv.readDecimals, TradeEv.readBalanceOf]
  let amt := resolveSellAmount env amount
  if amt == 0 then (SellOutcome.nothingToSell, evs)
  else
    match getSwapQuoteKyber env.quote with
    | (Except.error msg, qevs) => (classifySellError msg, evs ++ qevs)
    | (Except.ok sb, qevs) =>
      let evs := evs ++ qevs ++ [TradeEv.writeApprove sb.routerAddress amt]
      match env.approveResult with
      | Except.error msg => (classifySellError msg, evs)
      | Except.ok approveHash =>
        let evs := evs ++ [TradeEv.waitReceipt approveHash]
        match env.approveReceipt with
        | Except.error msg => (classifySellError msg, evs)
        | Except.ok _ =>
          let evs := evs ++ [TradeEv.getNativeBalance]
          match env.sendResult with
          | Except.error msg =>
              (classifySellError msg, evs ++ [TradeEv.sendTx sb.routerAddress 0])
          | Except.ok hash =>
            let evs := evs ++ [TradeEv.sendTx sb.routerAddress 0, TradeEv.waitReceipt hash]
            match env.swapReceipt with
            | Except.error msg => (classifySellError msg, evs)
            | Except.ok _ =>
              let evs := evs ++ [TradeEv.getNativeBalance]
              let received : Int := (env.ethAfter : Int) - (env.ethBefore : Int)
              (SellOutcome.ok hash (if 0 < received then received else 0).toNat, evs)

/-! ## The MEXC buy route with TP/SL brackets
(src/unnamed/part_002 registerRoutes, src/server/mexc-api.ts) -/

/-- The fields of a MEXC order response the route inspects.
`executedQty` is `none` when the response omits it; the JS truthiness test
`order.executedQty` is false for an absent or empty string. -/
structure MexcOrder where
  orderId : String
  executedQty : Option String
deriving DecidableEq, Repr

/-- JS truthiness of an optional string. -/
def truthyStr : Option String → Bool
  | some s => s != ""
  | none => false

/-- Order-placement calls the MEXC client can make (side, type, price;
cancelOrder is the call the cancel route makes — the buy route never emits
it, which is what "no rollback" means). -/
inductive MexcEv : Type where
  | placeOrder : String → String → Option String → MexcEv
  | cancelOrder : String → MexcEv
deriving DecidableEq, Repr

/-- Remote behaviour for one MEXC buy route call: the result of the primary
market order and of the optional TP and SL limit orders (placeOrder catches
failures and returns null, modelled as none). -/
structure MexcEnv where
  buyResult : Option MexcOrder
  tpResult : Option MexcOrder
  slResult : Option MexcOrder
deriving Repr

/-- The opposite side used for bracket orders:
`side === "BUY" ? "SELL" : "BUY"`. -/
def oppositeSide (side : String) : String := if side == "BUY" then "SELL" else "BUY"

/-- placeTpSlOrders of src/server/mexc-api.ts: when tp is given, place a
LIMIT order on the opposite side at tp; then, when sl is given, place a
LIMIT order on the opposite side at sl.  Each result is recorded as-is; a
null (failed) bracket order triggers nothing further. -/
def placeTpSlOrders (env : MexcEnv) (side : String) (tp sl : Option String) :
    (Option (Option MexcOrder) × Option (Option MexcOrder)) × List MexcEv :=
  let tpPart : Option (Option MexcOrder) × List MexcEv :=
    match tp with
    | some px => (some env.tpResult, [MexcEv.placeOrder (oppositeSide side) "LIMIT" (some px)])
    | none => (none, [])
  let slPart : Option (Option MexcOrder) × List MexcEv :=
    match sl with
    | some px => (some env.slResult, [MexcEv.placeOrder (oppositeSide side) "LIMIT" (some px)])
    | none => (none, [])
  ((tpPart.1, slPart.1), tpPart.2 ++ slPart.2)

/-- The distinct return sites of the /api/mexc/buy route. -/
inductive MexcRouteOutcome : Type where
  /-- Status 400 "symbol and amount are required" or "Failed to place buy order". -/
  | badRequest : String → MexcRouteOutcome
  /-- Status 200 with the primary order and whatever placeTpSlOrders returned. -/
  | ok : MexcOrder → Option (Option MexcOrder) → Option (Option MexcOrder) → MexcRouteOutcome
deriving DecidableEq, Repr

/-- The /api/mexc/buy route of src/unnamed/part_002: place the market buy;
on null, fail; then, only when (tp or sl) was supplied and its reported
executedQty is truthy, place the bracket orders.  A failed bracket is
returned as null with the primary fill untouched (no cancelOrder call
exists on this path). -/
def mexcBuyRoute (env : MexcEnv) (symbol amount : Option String) (tp sl : Option String) :
    MexcRouteOutcome × List MexcEv :=
  match symbol, amount with
  | some _, some _ =>
    match env.buyResult with
    | none => (MexcRouteOutcome.badRequest "Failed to place buy order",
               [MexcEv.placeOrder "BUY" "MARKET" none])
    | some order =>
      if (tp.isSome || sl.isSome) && truthyStr order.executedQty then
        let placed := placeTpSlOrders env "BUY" tp sl
        (MexcRouteOutcome.ok order placed.1.1 placed.1.2,
         MexcEv.placeOrder "BUY" "MARKET" none :: placed.2)
      else (MexcRouteOutcome.ok order none none, [MexcEv.placeOrder "BUY" "MARKET" none])
  | _, _ => (MexcRouteOutcome.badRequest "symbol and amount are required", [])

/-! ## The OKX spot and leveraged entries with TP/SL
(src/server/okx-api.ts buySpot, openLong, openShort) -/

/-- The fields of an OKX order response relevant here: `fillSz` /
`accFillSz` are the reported filled quantities. -/
structure OkxOrder where
  ordId : String
  fillSz : String
  accFillSz : String
deriving DecidableEq, Repr

/-- Trade calls the OKX client can make: set leverage (lever, mgnMode), a
regular order (tdMode, side, ordType, posSide), a conditional TP/SL algo
order (tdMode, side, posSide, tpTriggerPx, slTriggerPx), or a cancel
(never emitted by the entry paths). -/
inductive OkxEv : Type where
  | setLeverage : String → String → OkxEv
  | placeOrder : String → String → String → Option String → OkxEv
  | placeAlgo : String → String → Option String → Option String → Option String → OkxEv
  | cancelOrder : String → OkxEv
deriving DecidableEq, Repr

/-- Remote behaviour for one buySpot / openLong / openShort call. -/
structure OkxEnv where
  orderResult : Option OkxOrder
  tpAlgoResult : Option String
  slAlgoResult : Option String
deriving Repr

/-- buySpot of src/server/okx-api.ts: place the market buy (tdMode cash);
if it returned an order and tp or sl was supplied, place one conditional
sell algo order per trigger price.  The fill quantity of the primary order
is never consulted, and algo-order failures are ignored. -/
def okxBuySpot (env : OkxEnv) (tp sl : Option String) :
    Option OkxOrder × List OkxEv :=
  match env.orderResult with
  | none => (none, [OkxEv.placeOrder "cash" "buy" "market" none])
  | some order =>
    if tp.isSome || sl.isSome then
      let tpEvs := match tp with
        | some px => [OkxEv.placeAlgo "cash" "sell" none (some px) none]
        | none => []
      let slEvs := match sl with
        | some px => [OkxEv.placeAlgo "cash" "sell" none none (some px)]
        | none => []
      (some order, OkxEv.placeOrder "cash" "buy" "market" none :: (tpEvs ++ slEvs))
    else (some order, [OkxEv.placeOrder "cash" "buy" "market" none])

/-- openLong of src/server/okx-api.ts: set leverage (cross), place the
market buy with posSide long; if it returned an order and tp or sl was
supplied, place one conditional sell algo order (posSide long) per trigger
price.  As in buySpot, the fill quantity is never consulted and algo-order
failures are ignored. -/
def okxOpenLong (env : OkxEnv) (leverage : String) (tp sl : Option String) :
    Option OkxOrder × List OkxEv :=
  let lead := [OkxEv.setLeverage leverage "cross",
    OkxEv.placeOrder "cross" "buy" "market" (some "long")]
  match env.orderResult with
  | none => (none, lead)
  | some order =>
    if tp.isSome || sl.isSome then
      let tpEvs := match tp with
        | some px => [OkxEv.placeAlgo "cross" "sell" (some "long") (some px) none]
        | none => []
      let slEvs := match sl with
        | some px => [OkxEv.placeAlgo "cross" "sell" (some "long") none (some px)]
        | none => []
      (some order, lead ++ tpEvs ++ slEvs)
    else (some order, lead)

/-- openShort of src/server/okx-api.ts: set leverage (cross), place the
market sell with posSide short; if it returned an order and tp or sl was
supplied, place one conditional buy algo order (posSide short) per trigger
price. -/
def okxOpenShort (env : OkxEnv) (leverage : String) (tp sl : Option String) :
    Option OkxOrder × List OkxEv :=
  let lead := [OkxEv.setLeverage leverage "cross",
    OkxEv.placeOrder "cross" "sell" "market" (some "short")]
  match env.orderResult with
  | none => (none, lead)
  | some order =>
    if tp.isSome || sl.isSome then
      let tpEvs := match tp with
        | some px => [OkxEv.placeAlgo "cross" "buy" (some "short") (some px) none]
        | none => []
      let slEvs := match sl with
        | some px => [OkxEv.placeAlgo "cross" "buy" (some "short") none (some px)]
        | none => []
      (some order, lead ++ tpEvs ++ slEvs)
    else (some order, lead)

/-! # Claims -/

/-- C1.  getSwapQuote attempts the aggregator providers strictly in the
fixed priority order Kyberswap, Odos, ParaSwap, 1inch; the first provider
yielding a usable built quote is returned immediately (its quote, never a
price comparison), later providers are not contacted; in particular when
only the tertiary provider (ParaSwap) succeeds, the primary and secondary
were attempted first and the ParaSwap quote is returned. -/
theorem getSwapQuote_priority_first_success :
    (∀ (env : AggEnv) (amt : Nat),
      getSwapQuote env amt = (specFirstQuote env amt, specAttempted env amt)) ∧
    (∀ (p : TxPayload) (i : Option TxPayload) (amt : Nat),
      getSwapQuote { kyber := none, odos := none, paraswap := some p, oneinch := i } amt =
        (some { toAddress := p.toAddress, data := p.data, value := p.value,
                type := "paraswap" },
         [Provider.kyberswap, Provider.odos, Provider.paraswap])) := by
  constructor
  · intro env amt
    obtain ⟨k, o, pq, oi⟩ := env
    cases k <;> cases o <;> cases pq <;> cases oi <;> rfl
  · intro p i amt
    cases i <;> rfl

/-- Concrete run for C2: a wallet with zero native balance, a working
Kyberswap quote, and a chain that rejects the submission with the usual
insufficient-funds message. -/
def c2Env : BuyTokenEnv :=
  { walletBalance := 0,
    quote := { routesOk := true, routesStatus := 200, hasRouteSummary := true,
               buildOk := true, buildStatus := 200,
               build := { routerAddress := "0xrouter", data := "0xcalldata" } },
    sendResult := Except.error "insufficient funds for gas * price + value",
    receiptResult := Except.ok (),
    decimalsValue := 18, balanceValue := 0 }

/-- C2 counterexample.  buyToken (src/unnamed/part_001), one of the two buy
paths the claim covers, has no balance pre-check: with a balance below
amount + gas buffer it still issues the aggregator route and build calls
and a transaction submission attempt, only then failing with the
insufficient-funds classification — so "zero calls to the aggregator
quote/build endpoints and zero calls to the transaction-submission
interface" is false. -/
theorem buyToken_insufficient_funds_still_calls_network :
    c2Env.walletBalance < 10 ^ 16 + GAS_BUFFER ∧
    (buyToken c2Env (10 ^ 16)).1 = BuyTokenOutcome.insufficientFunds ∧
    TradeEv.kyberRoutes ∈ (buyToken c2Env (10 ^ 16)).2 ∧
    TradeEv.kyberBuild ∈ (buyToken c2Env (10 ^ 16)).2 ∧
    TradeEv.sendTx "0xrouter" (10 ^ 16) ∈ (buyToken c2Env (10 ^ 16)).2 := by
  decide

/-- C2 amended.  The buy endpoint handler (src/api/trade/buy.ts) checks
`balance < amount + 0.0005 ETH` first and, when it fails, returns the
InsufficientFunds response having made only the balance read: no aggregator
quote/build call and no transaction submission (this also covers the
defaulted 0.001 ETH amount).  The buyToken path (src/unnamed/part_001), by
contrast, performs no pre-check: with insufficient balance it still quotes
and attempts the submission, classifying InsufficientFunds only from the
submission error. -/
theorem buy_insufficient_funds_check :
    (∀ (env : BuyHandlerEnv) (token : String) (q : ℚ),
      env.balance < requestedWei (some q) + GAS_BUFFER →
        buyHandler env token (some q) = (BuyOutcome.insufficientEth, [BuyEv.getBalance])) ∧
    (∀ (env : BuyHandlerEnv) (token : String),
      env.balance < requestedWei none + GAS_BUFFER →
        buyHandler env token none = (BuyOutcome.insufficientEth, [BuyEv.getBalance])) ∧
    (∀ (env : BuyTokenEnv) (amt : Nat) (msg : String),
      env.quote.routesOk = true → env.quote.hasRouteSummary = true →
      env.quote.buildOk = true → env.sendResult = Except.error msg →
      containsSubstr msg "insufficient funds" = true →
        (buyToken env amt).1 = BuyTokenOutcome.insufficientFunds ∧
        TradeEv.kyberRoutes ∈ (buyToken env amt).2 ∧
        TradeEv.kyberBuild ∈ (buyToken env amt).2 ∧
        TradeEv.sendTx env.quote.build.routerAddress amt ∈ (buyToken env amt).2) := by
  refine ⟨?_, ?_, ?_⟩
  · intro env token q h
    unfold buyHandler
    simp only [if_pos h]
  · intro env token h
    unfold buyHandler
    simp only [if_pos h]
  · intro env amt msg hr hs hb hsend hmsg
    unfold buyToken getSwapQuoteKyber
    simp only [hr, hs, hb, hsend, Bool.not_true, Bool.false_eq_true, if_false,
      classifyBuyTokenError, hmsg, Bool.true_or, if_true]
    simp [List.mem_append]

/-- Environment for the C2 witness: balance 0.005 ETH. -/
def c2WitnessEnv : BuyHandlerEnv :=
  { balance := 5 * 10 ^ 15,
    agg := { kyber := none, odos := none, paraswap := none, oneinch := none },
    swapSendResult := Except.ok "0x1", devbuySendResult := Except.ok "0x1",
    receiptResult := Except.ok (), symbolResult := Except.ok "T",
    decimalsResult := Except.ok 18, tokenBalanceResult := Except.ok 0 }

/-- C2 witness: the amended handler property applied at a concrete
insufficient-balance call (balance 0.005 ETH, buy 0.01 ETH). -/
theorem buy_insufficient_funds_check_witness :
    buyHandler c2WitnessEnv "0xtoken" (some (1/100)) =
      (BuyOutcome.insufficientEth, [BuyEv.getBalance]) :=
  buy_insufficient_funds_check.1 c2WitnessEnv "0xtoken" (1/100)
    (by with_unfolding_all decide)

/-- Concrete run for C6: every aggregator fails for WETH (not a
launch-venue token) and the chain accepts the dev-buy transaction. -/
def c6Env : BuyHandlerEnv :=
  { balance := 10 ^ 18,
    agg := { kyber := none, odos := none, paraswap := none, oneinch := none },
    swapSendResult := Except.error "unused",
    devbuySendResult := Except.ok "0xdevbuyhash",
    receiptResult := Except.ok (), symbolResult := Except.ok "WETH",
    decimalsResult := Except.ok 18, tokenBalanceResult := Except.ok 12345 }

/-- C6 counterexample.  The handler never checks whether the buy token is a
recognized launch-venue (Clanker) token: when all aggregators fail it
submits the Clanker dev-buy transaction for any token.  For WETH — not a
launch-venue token — with a dev-buy submission the chain accepts, the
result is a success via "clanker", not `{success:false,
errorKind:NoLiquidity}` as the claim states for unrecognized tokens. -/
theorem buyHandler_devbuy_attempted_for_any_token :
    (buyHandler c6Env "0x4200000000000000000000000000000000000006" none).1 =
      BuyOutcome.ok "0xdevbuyhash" "clanker" 12345 18 "WETH" ∧
    BuyEv.sendTx CLANKER_DEVBUY ∈
      (buyHandler c6Env "0x4200000000000000000000000000000000000006" none).2 := by
  decide

/-- C6 amended.  When every aggregator provider fails, the handler falls
back to the Clanker dev-buy contract call for every token (there is no
launch-venue recognition check); if the dev-buy submission also fails the
result is the NoLiquidity-class 400 response carrying the clanker.world
guidance link for that token; if it succeeds the buy proceeds via
"clanker". -/
theorem buyHandler_devbuy_fallback :
    ∀ (env : BuyHandlerEnv) (token : String) (amountEth : Option ℚ),
      env.agg.kyber = none → env.agg.odos = none → env.agg.paraswap = none →
      env.agg.oneinch = none →
      ¬ env.balance < requestedWei amountEth + GAS_BUFFER →
      BuyEv.sendTx CLANKER_DEVBUY ∈ (buyHandler env token amountEth).2 ∧
      (∀ e, env.devbuySendResult = Except.error e →
        (buyHandler env token amountEth).1 =
          BuyOutcome.notTradeable ("https://clanker.world/clanker/" ++ token)) := by
  intro env token amountEth hk ho hp hi hbal
  obtain ⟨bal, agg, ssr, dbr, rr, sr, dr, tbr⟩ := env
  obtain ⟨k, o, p, i⟩ := agg
  subst hk; subst ho; subst hp; subst hi
  unfold buyHandler
  simp only [if_neg hbal, getSwapQuote]
  cases dbr with
  | error e =>
      refine ⟨by simp, ?_⟩
      intro e2 he2
      simp at he2
      subst he2
      rfl
  | ok hash =>
      constructor
      · cases rr <;> cases sr <;> cases dr <;> cases tbr <;>
          simp [buyHandlerTail, List.mem_append]
      · intro e2 he2
        simp at he2

/-- Environment for the C6 witness: all aggregators fail and the dev-buy
submission reverts. -/
def c6WitnessEnv : BuyHandlerEnv :=
  { balance := 10 ^ 18,
    agg := { kyber := none, odos := none, paraswap := none, oneinch := none },
    swapSendResult := Except.error "unused",
    devbuySendResult := Except.error "execution reverted",
    receiptResult := Except.ok (), symbolResult := Except.ok "T",
    decimalsResult := Except.ok 18, tokenBalanceResult := Except.ok 0 }

/-- C6 witness: the amended fallback property at a concrete all-providers-
fail, dev-buy-reverts call. -/
theorem buyHandler_devbuy_fallback_witness :
    BuyEv.sendTx CLANKER_DEVBUY ∈ (buyHandler c6WitnessEnv "0xabc" none).2 ∧
    (buyHandler c6WitnessEnv "0xabc" none).1 =
      BuyOutcome.notTradeable ("https://clanker.world/clanker/" ++ "0xabc") := by
  have h := buyHandler_devbuy_fallback c6WitnessEnv "0xabc" none rfl rfl rfl rfl
    (by decide)
  exact ⟨h.1, h.2 "execution reverted" rfl⟩

/-- C8 amended.  A sell whose resolved amount is zero fails fast with the
NothingToSell classification ("No tokens to sell") before any quote/build
request, any approval, and any transaction submission; the only network
calls made before the short-circuit are the two RPC reads (token decimals
and live balance) needed to resolve the amount. -/
theorem sellToken_zero_amount_short_circuit :
    ∀ (env : SellEnv) (amt : SellAmount),
      resolveSellAmount env amt = 0 →
      sellToken env amt =
        (SellOutcome.nothingToSell, [TradeEv.readDecimals, TradeEv.readBalanceOf]) ∧
      TradeEv.kyberRoutes ∉ (sellToken env amt).2 ∧
      TradeEv.kyberBuild ∉ (sellToken env amt).2 ∧
      (∀ (a : String) (v : Nat), TradeEv.sendTx a v ∉ (sellToken env amt).2) ∧
      (∀ (s : String) (n : Int), TradeEv.writeApprove s n ∉ (sellToken env amt).2) := by
  intro env amt h
  simp [sellToken, h]

/-- Concrete run for C8: an account holding zero tokens, selling "all". -/
def c8Env : SellEnv :=
  { decimalsValue := 18, tokenBalance := 0,
    quote := { routesOk := true, routesStatus := 200, hasRouteSummary := true,
               buildOk := true, buildStatus := 200,
               build := { routerAddress := "0xrouter", data := "0xcalldata" } },
    approveResult := Except.ok "0xapprove", approveReceipt := Except.ok (),
    ethBefore := 0, sendResult := Except.ok "0xswap", swapReceipt := Except.ok (),
    ethAfter := 0 }

/-- C8 counterexample.  The zero-amount short-circuit of sellToken
(src/unnamed/part_001; the handler of src/unnamed/part_009 is identical) is
NOT "before any network call is made": the code must first read the token
decimals and the live balance over the chain RPC to resolve the amount, so
a zero-amount sell still performs those two network calls before returning
"No tokens to sell". -/
theorem sellToken_zero_amount_reads_chain_first :
    (sellToken c8Env SellAmount.all).1 = SellOutcome.nothingToSell ∧
    (sellToken c8Env SellAmount.all).2 = [TradeEv.readDecimals, TradeEv.readBalanceOf] ∧
    (sellToken c8Env SellAmount.all).2 ≠ [] := by
  decide

/-- C8 witness: the amended short-circuit property at a concrete
zero-balance "all" sell. -/
theorem sellToken_zero_amount_short_circuit_witness :
    sellToken c8Env SellAmount.all =
      (SellOutcome.nothingToSell, [TradeEv.readDecimals, TradeEv.readBalanceOf]) :=
  (sellToken_zero_amount_short_circuit c8Env SellAmount.all (by decide)).1

/-- The sellToken catch classification never yields a success value. -/
theorem classifySellError_ne_ok (msg hash : String) (w : Nat) :
    classifySellError msg ≠ SellOutcome.ok hash w := by
  unfold classifySellError
  split_ifs <;> simp

/-- C7.  In every sellToken run (src/unnamed/part_001; the handler of
src/unnamed/part_009 is identical), whenever a swap transaction is
submitted, the approval (spender = the quoted swap target, i.e. the same
address the swap is sent to, for the resolved amount) was submitted and its
receipt awaited successfully strictly earlier in the call trace; and a
successful sell reports as received the native balance after the swap minus
the balance before it, clamped below at zero. -/
theorem sellToken_approve_confirmed_before_swap :
    ∀ (env : SellEnv) (amt : SellAmount),
      (∀ (a : String) (v : Nat), TradeEv.sendTx a v ∈ (sellToken env amt).2 →
        ∃ approveHash l1 l2,
          env.approveResult = Except.ok approveHash ∧
          env.approveReceipt = Except.ok () ∧
          (sellToken env amt).2 = l1 ++ TradeEv.sendTx a v :: l2 ∧
          TradeEv.writeApprove a (resolveSellAmount env amt) ∈ l1 ∧
          TradeEv.waitReceipt approveHash ∈ l1) ∧
      (∀ (hash : String) (w : Nat), (sellToken env amt).1 = SellOutcome.ok hash w →
        w = ((env.ethAfter : Int) - (env.ethBefore : Int)).toNat) := by
  intro env amt
  cases hz : (resolveSellAmount env amt == 0) with
  | true =>
    constructor
    · intro a v hmem
      simp [sellToken, hz] at hmem
    · intro h w hok
      simp [sellToken, hz] at hok
  | false =>
    cases hro : env.quote.routesOk with
    | false =>
      constructor
      · intro a v hmem
        simp [sellToken, getSwapQuoteKyber, hz, hro] at hmem
      · intro h w hok
        simp [sellToken, getSwapQuoteKyber, hz, hro, classifySellError_ne_ok] at hok
    | true =>
      cases hhs : env.quote.hasRouteSummary with
      | false =>
        constructor
        · intro a v hmem
          simp [sellToken, getSwapQuoteKyber, hz, hro, hhs] at hmem
        · intro h w hok
          simp [sellToken, getSwapQuoteKyber, hz, hro, hhs, classifySellError_ne_ok] at hok
      | true =>
        cases hbo : env.quote.buildOk with
        | false =>
          constructor
          · intro a v hmem
            simp [sellToken, getSwapQuoteKyber, hz, hro, hhs, hbo] at hmem
          · intro h w hok
            simp [sellToken, getSwapQuoteKyber, hz, hro, hhs, hbo,
              classifySellError_ne_ok] at hok
        | true =>
          cases har : env.approveResult with
          | error m =>
            constructor
            · intro a v hmem
              simp [sellToken, getSwapQuoteKyber, hz, hro, hhs, hbo, har] at hmem
            · intro h w hok
              simp [sellToken, getSwapQuoteKyber, hz, hro, hhs, hbo, har,
                classifySellError_ne_ok] at hok
          | ok ah =>
            cases harr : env.approveReceipt with
            | error m =>
              constructor
              · intro a v hmem
                simp [sellToken, getSwapQuoteKyber, hz, hro, hhs, hbo, har, harr] at hmem
              · intro h w hok
                simp [sellToken, getSwapQuoteKyber, hz, hro, hhs, hbo, har, harr,
                  classifySellError_ne_ok] at hok
            | ok u =>
              cases hsr : env.sendResult with
              | error m =>
                have hres : sellToken env amt = (classifySellError m,
                    [TradeEv.readDecimals, TradeEv.readBalanceOf, TradeEv.kyberRoutes,
                     TradeEv.kyberBuild,
                     TradeEv.writeApprove env.quote.build.routerAddress
                       (resolveSellAmount env amt),
                     TradeEv.waitReceipt ah, TradeEv.getNativeBalance,
                     TradeEv.sendTx env.quote.build.routerAddress 0]) := by
                  simp [sellToken, getSwapQuoteKyber, hz, hro, hhs, hbo, har, harr, hsr]
                constructor
                · intro a v hmem
                  rw [hres] at hmem
                  simp at hmem
                  obtain ⟨ha, hv⟩ := hmem
                  subst ha; subst hv
                  rw [hres]
                  exact ⟨ah, [TradeEv.readDecimals, TradeEv.readBalanceOf,
                    TradeEv.kyberRoutes, TradeEv.kyberBuild,
                    TradeEv.writeApprove env.quote.build.routerAddress
                      (resolveSellAmount env amt),
                    TradeEv.waitReceipt ah, TradeEv.getNativeBalance], [],
                    rfl, rfl, rfl, by simp, by simp⟩
                · intro h w hok
                  rw [hres] at hok
                  exact absurd hok (classifySellError_ne_ok _ _ _)
              | ok h1 =>
                cases hswr : env.swapReceipt with
                | error m =>
                  have hres : sellToken env amt = (classifySellError m,
                      [TradeEv.readDecimals, TradeEv.readBalanceOf, TradeEv.kyberRoutes,
                       TradeEv.kyberBuild,
                       TradeEv.writeApprove env.quote.build.routerAddress
                         (resolveSellAmount env amt),
                       TradeEv.waitReceipt ah, TradeEv.getNativeBalance,
                       TradeEv.sendTx env.quote.build.routerAddress 0,
                       TradeEv.waitReceipt h1]) := by
                    simp [sellToken, getSwapQuoteKyber, hz, hro, hhs, hbo, har, harr,
                      hsr, hswr]
                  constructor
                  · intro a v hmem
                    rw [hres] at hmem
                    simp at hmem
                    obtain ⟨ha, hv⟩ := hmem
                    subst ha; subst hv
                    rw [hres]
                    exact ⟨ah, [TradeEv.readDecimals, TradeEv.readBalanceOf,
                      TradeEv.kyberRoutes, TradeEv.kyberBuild,
                      TradeEv.writeApprove env.quote.build.routerAddress
                        (resolveSellAmount env amt),
                      TradeEv.waitReceipt ah, TradeEv.getNativeBalance],
                      [TradeEv.waitReceipt h1],
                      rfl, rfl, rfl, by simp, by simp⟩
                  · intro h w hok
                    rw [hres] at hok
                    exact absurd hok (classifySellError_ne_ok _ _ _)
                | ok u2 =>
                  have hres : sellToken env amt = (SellOutcome.ok h1
                      ((if 0 < (env.ethAfter : Int) - (env.ethBefore : Int) then
                          (env.ethAfter : Int) - (env.ethBefore : Int) else 0).toNat),
                      [TradeEv.readDecimals, TradeEv.readBalanceOf, TradeEv.kyberRoutes,
                       TradeEv.kyberBuild,
                       TradeEv.writeApprove env.quote.build.routerAddress
                         (resolveSellAmount env amt),
                       TradeEv.waitReceipt ah, TradeEv.getNativeBalance,
                       TradeEv.sendTx env.quote.build.routerAddress 0,
                       TradeEv.waitReceipt h1, TradeEv.getNativeBalance]) := by
                    simp [sellToken, getSwapQuoteKyber, hz, hro, hhs, hbo, har, harr,
                      hsr, hswr]
                  constructor
                  · intro a v hmem
                    rw [hres] at hmem
                    simp at hmem
                    obtain ⟨ha, hv⟩ := hmem
                    subst ha; subst hv
                    rw [hres]
                    exact ⟨ah, [TradeEv.readDecimals, TradeEv.readBalanceOf,
                      TradeEv.kyberRoutes, TradeEv.kyberBuild,
                      TradeEv.writeApprove env.quote.build.routerAddress
                        (resolveSellAmount env amt),
                      TradeEv.waitReceipt ah, TradeEv.getNativeBalance],
                      [TradeEv.waitReceipt h1, TradeEv.getNativeBalance],
                      rfl, rfl, rfl, by simp, by simp⟩
                  · intro h w hok
                    rw [hres] at hok
                    simp at hok
                    obtain ⟨hh, hw⟩ := hok
                    omega


/-- Concrete successful sell for the C7 witness: balance 1000 tokens, native
balance 100 wei before and 250 wei after the swap. -/
def c7WitnessEnv : SellEnv :=
  { decimalsValue := 18, tokenBalance := 1000,
    quote := { routesOk := true, routesStatus := 200, hasRouteSummary := true,
               buildOk := true, buildStatus := 200,
               build := { routerAddress := "0xrouter", data := "0xcalldata" } },
    approveResult := Except.ok "0xapprove", approveReceipt := Except.ok (),
    ethBefore := 100, sendResult := Except.ok "0xswap", swapReceipt := Except.ok (),
    ethAfter := 250 }

/-- C7 witness: the ordering and balance-delta properties applied at a
concrete successful sell. -/
theorem sellToken_approve_confirmed_before_swap_witness :
    (∃ approveHash l1 l2,
      c7WitnessEnv.approveResult = Except.ok approveHash ∧
      c7WitnessEnv.approveReceipt = Except.ok () ∧
      (sellToken c7WitnessEnv SellAmount.all).2 =
        l1 ++ TradeEv.sendTx "0xrouter" 0 :: l2 ∧
      TradeEv.writeApprove "0xrouter" (resolveSellAmount c7WitnessEnv SellAmount.all) ∈ l1 ∧
      TradeEv.waitReceipt approveHash ∈ l1) ∧
    (150 : Nat) = ((250 : Int) - (100 : Int)).toNat := by
  have h := sellToken_approve_confirmed_before_swap c7WitnessEnv SellAmount.all
  refine ⟨h.1 "0xrouter" 0 (by decide), ?_⟩
  have hr : (sellToken c7WitnessEnv SellAmount.all).1 = SellOutcome.ok "0xswap" 150 := by
    decide
  exact h.2 "0xswap" 150 hr

/-- Concrete run for C9: the OKX primary market order succeeds but reports
no filled quantity (empty fillSz/accFillSz), a take-profit is supplied. -/
def c9Env : OkxEnv :=
  { orderResult := some { ordId := "1", fillSz := "", accFillSz := "" },
    tpAlgoResult := some "algo1", slAlgoResult := none }

/-- C9 counterexample.  On the OKX spot path (buySpot), bracket algo orders
are placed whenever the primary order object is returned and tp/sl is
supplied — the reported filled quantity is never consulted.  Here the
primary order reports no filled quantity (fillSz and accFillSz empty) and
the TP algo order is still placed, contradicting "bracket orders are placed
only when ... the primary market order ... reports a filled quantity". -/
theorem okxBuySpot_bracket_without_reported_fill :
    (okxBuySpot c9Env (some "2.5") none).1 =
      some { ordId := "1", fillSz := "", accFillSz := "" } ∧
    OkxEv.placeAlgo "cash" "sell" none (some "2.5") none ∈
      (okxBuySpot c9Env (some "2.5") none).2 := by
  decide

/-- C9 amended.  On the MEXC buy route, bracket (LIMIT) orders are placed
exactly when a tp or sl price was supplied, the primary market order
succeeded, and its response carries a truthy executedQty — one opposite-side
LIMIT order per supplied trigger price.  On the OKX entries — the spot path
(buySpot) and the leveraged paths (openLong, openShort) alike — bracket
algo orders are placed whenever the primary order succeeded and tp or sl
was supplied, one conditional opposite-side algo order per supplied trigger
price, with no filled-quantity check.  On both venues a failed primary
prevents any bracket order, the primary order is returned unchanged
whatever the bracket results are, and no cancellation of the primary is
ever issued. -/
theorem bracket_orders_best_effort :
    (∀ (env : MexcEnv) (symbol amount tp sl : Option String) (s : String)
        (px : Option String),
      MexcEv.placeOrder s "LIMIT" px ∈ (mexcBuyRoute env symbol amount tp sl).2 →
        (tp.isSome || sl.isSome) = true ∧
        ∃ o, env.buyResult = some o ∧ truthyStr o.executedQty = true) ∧
    (∀ (env : MexcEnv) (sym amt : String) (tp sl : Option String) (o : MexcOrder),
      env.buyResult = some o → truthyStr o.executedQty = true →
      (∀ px, tp = some px →
        MexcEv.placeOrder "SELL" "LIMIT" (some px) ∈
          (mexcBuyRoute env (some sym) (some amt) tp sl).2) ∧
      (∀ px, sl = some px →
        MexcEv.placeOrder "SELL" "LIMIT" (some px) ∈
          (mexcBuyRoute env (some sym) (some amt) tp sl).2)) ∧
    (∀ (env : MexcEnv) (symbol amount tp sl : Option String),
      env.buyResult = none → ∀ (s : String) (px : Option String),
        MexcEv.placeOrder s "LIMIT" px ∉ (mexcBuyRoute env symbol amount tp sl).2) ∧
    (∀ (env : MexcEnv) (symbol amount tp sl : Option String) (oid : String),
      MexcEv.cancelOrder oid ∉ (mexcBuyRoute env symbol amount tp sl).2) ∧
    (∀ (env : MexcEnv) (sym amt : String) (tp sl : Option String) (o : MexcOrder),
      env.buyResult = some o →
        ∃ tpO slO, (mexcBuyRoute env (some sym) (some amt) tp sl).1 =
          MexcRouteOutcome.ok o tpO slO) ∧
    (∀ (env : OkxEnv) (tp sl : Option String) (td s : String)
        (ps tpx slx : Option String),
      OkxEv.placeAlgo td s ps tpx slx ∈ (okxBuySpot env tp sl).2 →
        (tp.isSome || sl.isSome) = true ∧ env.orderResult.isSome = true) ∧
    (∀ (env : OkxEnv) (tp sl : Option String) (o : OkxOrder),
      env.orderResult = some o →
      (∀ px, tp = some px →
        OkxEv.placeAlgo "cash" "sell" none (some px) none ∈ (okxBuySpot env tp sl).2) ∧
      (∀ px, sl = some px →
        OkxEv.placeAlgo "cash" "sell" none none (some px) ∈ (okxBuySpot env tp sl).2)) ∧
    (∀ (env : OkxEnv) (tp sl : Option String),
      env.orderResult = none → ∀ (td s : String) (ps tpx slx : Option String),
        OkxEv.placeAlgo td s ps tpx slx ∉ (okxBuySpot env tp sl).2) ∧
    (∀ (env : OkxEnv) (tp sl : Option String) (oid : String),
      OkxEv.cancelOrder oid ∉ (okxBuySpot env tp sl).2) ∧
    (∀ (env : OkxEnv) (tp sl : Option String) (o : OkxOrder),
      env.orderResult = some o → (okxBuySpot env tp sl).1 = some o) ∧
    (∀ (env : OkxEnv) (lev : String) (tp sl : Option String) (td s : String)
        (ps tpx slx : Option String),
      OkxEv.placeAlgo td s ps tpx slx ∈ (okxOpenLong env lev tp sl).2 →
        (tp.isSome || sl.isSome) = true ∧ env.orderResult.isSome = true) ∧
    (∀ (env : OkxEnv) (lev : String) (tp sl : Option String) (o : OkxOrder),
      env.orderResult = some o →
      (∀ px, tp = some px →
        OkxEv.placeAlgo "cross" "sell" (some "long") (some px) none ∈
          (okxOpenLong env lev tp sl).2) ∧
      (∀ px, sl = some px →
        OkxEv.placeAlgo "cross" "sell" (some "long") none (some px) ∈
          (okxOpenLong env lev tp sl).2)) ∧
    (∀ (env : OkxEnv) (lev : String) (tp sl : Option String),
      env.orderResult = none → ∀ (td s : String) (ps tpx slx : Option String),
        OkxEv.placeAlgo td s ps tpx slx ∉ (okxOpenLong env lev tp sl).2) ∧
    (∀ (env : OkxEnv) (lev : String) (tp sl : Option String) (oid : String),
      OkxEv.cancelOrder oid ∉ (okxOpenLong env lev tp sl).2) ∧
    (∀ (env : OkxEnv) (lev : String) (tp sl : Option String) (o : OkxOrder),
      env.orderResult = some o → (okxOpenLong env lev tp sl).1 = some o) ∧
    (∀ (env : OkxEnv) (lev : String) (tp sl : Option String) (td s : String)
        (ps tpx slx : Option String),
      OkxEv.placeAlgo td s ps tpx slx ∈ (okxOpenShort env lev tp sl).2 →
        (tp.isSome || sl.isSome) = true ∧ env.orderResult.isSome = true) ∧
    (∀ (env : OkxEnv) (lev : String) (tp sl : Option String) (o : OkxOrder),
      env.orderResult = some o →
      (∀ px, tp = some px →
        OkxEv.placeAlgo "cross" "buy" (some "short") (some px) none ∈
          (okxOpenShort env lev tp sl).2) ∧
      (∀ px, sl = some px →
        OkxEv.placeAlgo "cross" "buy" (some "short") none (some px) ∈
          (okxOpenShort env lev tp sl).2)) ∧
    (∀ (env : OkxEnv) (lev : String) (tp sl : Option String),
      env.orderResult = none → ∀ (td s : String) (ps tpx slx : Option String),
        OkxEv.placeAlgo td s ps tpx slx ∉ (okxOpenShort env lev tp sl).2) ∧
    (∀ (env : OkxEnv) (lev : String) (tp sl : Option String) (oid : String),
      OkxEv.cancelOrder oid ∉ (okxOpenShort env lev tp sl).2) ∧
    (∀ (env : OkxEnv) (lev : String) (tp sl : Option String) (o : OkxOrder),
      env.orderResult = some o → (okxOpenShort env lev tp sl).1 = some o) := by
  refine ⟨?_, ?_, ?_, ?_, ?_, ?_, ?_, ?_, ?_, ?_, ?_, ?_, ?_, ?_, ?_, ?_, ?_, ?_,
    ?_, ?_⟩
  · intro env symbol amount tp sl s px hmem
    cases symbol with
    | none => simp [mexcBuyRoute] at hmem
    | some sym =>
      cases amount with
      | none => simp [mexcBuyRoute] at hmem
      | some amt =>
        cases hbr : env.buyResult with
        | none => simp [mexcBuyRoute, hbr] at hmem
        | some o =>
          by_cases hc : ((tp.isSome || sl.isSome) && truthyStr o.executedQty) = true
          · obtain ⟨h1, h2⟩ := Bool.and_eq_true_iff.mp hc
            exact ⟨h1, o, rfl, h2⟩
          · simp [mexcBuyRoute, hbr, hc] at hmem
  · intro env sym amt tp sl o hbr hq
    constructor
    · intro px hpx
      subst hpx
      cases sl <;>
        simp [mexcBuyRoute, hbr, hq, placeTpSlOrders, oppositeSide]
    · intro px hpx
      subst hpx
      cases tp <;>
        simp [mexcBuyRoute, hbr, hq, placeTpSlOrders, oppositeSide]
  · intro env symbol amount tp sl hbr s px
    cases symbol with
    | none => simp [mexcBuyRoute]
    | some sym =>
      cases amount with
      | none => simp [mexcBuyRoute]
      | some amt => simp [mexcBuyRoute, hbr]
  · intro env symbol amount tp sl oid
    cases symbol with
    | none => simp [mexcBuyRoute]
    | some sym =>
      cases amount with
      | none => simp [mexcBuyRoute]
      | some amt =>
        cases hbr : env.buyResult with
        | none => simp [mexcBuyRoute, hbr]
        | some o =>
          by_cases hc : ((tp.isSome || sl.isSome) && truthyStr o.executedQty) = true
          · cases tp <;> cases sl <;>
              simp [mexcBuyRoute, hbr, hc, placeTpSlOrders] at hc ⊢ <;> simp [hbr, hc]
          · simp [mexcBuyRoute, hbr, hc]
  · intro env sym amt tp sl o hbr
    by_cases hc : ((tp.isSome || sl.isSome) && truthyStr o.executedQty) = true
    · exact ⟨(placeTpSlOrders env "BUY" tp sl).1.1, (placeTpSlOrders env "BUY" tp sl).1.2,
        by simp [mexcBuyRoute, hbr, hc]⟩
    · exact ⟨none, none, by simp [mexcBuyRoute, hbr, hc]⟩
  · intro env tp sl td s ps tpx slx hmem
    cases hor : env.orderResult with
    | none => simp [okxBuySpot, hor] at hmem
    | some o =>
      by_cases hc : (tp.isSome || sl.isSome) = true
      · exact ⟨hc, by simp [hor]⟩
      · simp [okxBuySpot, hor, hc] at hmem
  · intro env tp sl o hor
    constructor
    · intro px hpx
      subst hpx
      cases sl <;> simp [okxBuySpot, hor]
    · intro px hpx
      subst hpx
      cases tp <;> simp [okxBuySpot, hor]
  · intro env tp sl hor td s ps tpx slx
    simp [okxBuySpot, hor]
  · intro env tp sl oid
    cases hor : env.orderResult with
    | none => simp [okxBuySpot, hor]
    | some o =>
      by_cases hc : (tp.isSome || sl.isSome) = true
      · cases tp <;> cases sl <;> simp [okxBuySpot, hor, hc]
      · simp [okxBuySpot, hor, hc]
  · intro env tp sl o hor
    by_cases hc : (tp.isSome || sl.isSome) = true
    · simp [okxBuySpot, hor, hc]
    · simp [okxBuySpot, hor, hc]
  · intro env lev tp sl td s ps tpx slx hmem
    cases hor : env.orderResult with
    | none => simp [okxOpenLong, hor] at hmem
    | some o =>
      by_cases hc : (tp.isSome || sl.isSome) = true
      · exact ⟨hc, by simp [hor]⟩
      · simp [okxOpenLong, hor, hc] at hmem
  · intro env lev tp sl o hor
    constructor
    · intro px hpx
      subst hpx
      cases sl <;> simp [okxOpenLong, hor]
    · intro px hpx
      subst hpx
      cases tp <;> simp [okxOpenLong, hor]
  · intro env lev tp sl hor td s ps tpx slx
    simp [okxOpenLong, hor]
  · intro env lev tp sl oid
    cases hor : env.orderResult with
    | none => simp [okxOpenLong, hor]
    | some o =>
      by_cases hc : (tp.isSome || sl.isSome) = true
      · cases tp <;> cases sl <;> simp [okxOpenLong, hor, hc]
      · simp [okxOpenLong, hor, hc]
  · intro env lev tp sl o hor
    by_cases hc : (tp.isSome || sl.isSome) = true
    · simp [okxOpenLong, hor, hc]
    · simp [okxOpenLong, hor, hc]
  · intro env lev tp sl td s ps tpx slx hmem
    cases hor : env.orderResult with
    | none => simp [okxOpenShort, hor] at hmem
    | some o =>
      by_cases hc : (tp.isSome || sl.isSome) = true
      · exact ⟨hc, by simp [hor]⟩
      · simp [okxOpenShort, hor, hc] at hmem
  · intro env lev tp sl o hor
    constructor
    · intro px hpx
      subst hpx
      cases sl <;> simp [okxOpenShort, hor]
    · intro px hpx
      subst hpx
      cases tp <;> simp [okxOpenShort, hor]
  · intro env lev tp sl hor td s ps tpx slx
    simp [okxOpenShort, hor]
  · intro env lev tp sl oid
    cases hor : env.orderResult with
    | none => simp [okxOpenShort, hor]
    | some o =>
      by_cases hc : (tp.isSome || sl.isSome) = true
      · cases tp <;> cases sl <;> simp [okxOpenShort, hor, hc]
      · simp [okxOpenShort, hor, hc]
  · intro env lev tp sl o hor
    by_cases hc : (tp.isSome || sl.isSome) = true
    · simp [okxOpenShort, hor, hc]
    · simp [okxOpenShort, hor, hc]

/-- Concrete MEXC run for the C9 witness: tp supplied, primary filled with
executedQty "5", TP bracket order fails (null) — primary kept, no cancel. -/
def c9WitnessEnv : MexcEnv :=
  { buyResult := some { orderId := "77", executedQty := some "5" },
    tpResult := none, slResult := none }

/-- C9 witness: the amended bracket properties applied at a concrete MEXC
buy with a failing TP bracket, and at a concrete OKX leveraged long with a
take-profit. -/
theorem bracket_orders_best_effort_witness :
    ((some "1.2" : Option String).isSome || (none : Option String).isSome) = true ∧
    (∃ o, c9WitnessEnv.buyResult = some o ∧ truthyStr o.executedQty = true) ∧
    MexcEv.placeOrder "SELL" "LIMIT" (some "1.2") ∈
      (mexcBuyRoute c9WitnessEnv (some "BTCUSDT") (some "10") (some "1.2") none).2 ∧
    (∃ tpO slO,
      (mexcBuyRoute c9WitnessEnv (some "BTCUSDT") (some "10") (some "1.2") none).1 =
        MexcRouteOutcome.ok { orderId := "77", executedQty := some "5" } tpO slO) ∧
    MexcEv.cancelOrder "77" ∉
      (mexcBuyRoute c9WitnessEnv (some "BTCUSDT") (some "10") (some "1.2") none).2 ∧
    OkxEv.placeAlgo "cross" "sell" (some "long") (some "3.5") none ∈
      (okxOpenLong c9Env "10" (some "3.5") none).2 := by
  obtain ⟨h1, h2, h3, h4, h5, h6, h7, h8, h9, h10, h11, h12, h13, h14, h15, h16,
    h17, h18, h19, h20⟩ := bracket_orders_best_effort
  have ha := h1 c9WitnessEnv (some "BTCUSDT") (some "10") (some "1.2") none
    "SELL" (some "1.2") (by decide)
  have hb := (h2 c9WitnessEnv "BTCUSDT" "10" (some "1.2") none
    { orderId := "77", executedQty := some "5" } rfl (by decide)).1 "1.2" rfl
  have hc := h5 c9WitnessEnv "BTCUSDT" "10" (some "1.2") none
    { orderId := "77", executedQty := some "5" } rfl
  have hd := h4 c9WitnessEnv (some "BTCUSDT") (some "10") (some "1.2") none "77"
  have he := (h12 c9Env "10" (some "3.5") none
    { ordId := "1", fillSz := "", accFillSz := "" } rfl).1 "3.5" rfl
  exact ⟨ha.1, ha.2, hb, hc, hd, he⟩

/-! ## Extractor lemmas -/

/-- The base confidence is clamped to [0.1, 0.9]. -/
theorem baseConfidence_bounds (post : Post) :
    1/10 ≤ baseConfidence post ∧ baseConfidence post ≤ 9/10 := by
  unfold baseConfidence mathMin mathMax
  split_ifs <;> constructor <;> linarith

/-- The confidence of one intent signal, as a function of the cleaned
token. -/
theorem mkIntentSignal_confidence (post : Post) (action token : String) :
    (mkIntentSignal post action token).confidence =
      mathMin (95/100) (baseConfidence post +
        (if KNOWN_TOKENS.contains (cleanToken token) = true then 2/10 else 0)) := by
  unfold mkIntentSignal isKnownToken
  split_ifs with h
  · rfl
  · simp

/-- Every signal of the intent loops is some mkIntentSignal whose raw token
validated. -/
theorem intentSignals_shape (post : Post) (s : TradingSignal)
    (h : s ∈ intentSignals post) :
    ∃ action token, (action = "buy" ∨ action = "sell") ∧
      isValidToken token = true ∧ s = mkIntentSignal post action token := by
  unfold intentSignals signalsForPatterns at h
  rcases List.mem_append.mp h with h1 | h1 <;>
    obtain ⟨p, -, h2⟩ := List.mem_flatMap.mp h1 <;>
    obtain ⟨token, -, h3⟩ := List.mem_filterMap.mp h2
  · refine ⟨"buy", token, Or.inl rfl, ?_, ?_⟩ <;> revert h3 <;> split_ifs with hv <;>
      simp_all [Bool.and_eq_true_iff]
  · refine ⟨"sell", token, Or.inr rfl, ?_, ?_⟩ <;> revert h3 <;> split_ifs with hv <;>
      simp_all [Bool.and_eq_true_iff]

/-- Confidence formula for every intent-pattern signal: the claimed
`min(0.95, clamp(0.3 + net/50, 0.1, 0.9) + bonus)` with bonus 0.2 exactly
for known tokens. -/
theorem intentSignals_confidence (post : Post) (s : TradingSignal)
    (h : s ∈ intentSignals post) :
    s.confidence = mathMin (95/100) (baseConfidence post +
      (if KNOWN_TOKENS.contains s.token = true then 2/10 else 0)) := by
  obtain ⟨action, token, -, -, hs⟩ := intentSignals_shape post s h
  subst hs
  exact mkIntentSignal_confidence post action token

/-- Intent-signal confidences lie in [0.1, 0.95]. -/
theorem intentSignals_confidence_bounds (post : Post) (s : TradingSignal)
    (h : s ∈ intentSignals post) :
    1/10 ≤ s.confidence ∧ s.confidence ≤ 95/100 := by
  rw [intentSignals_confidence post s h]
  obtain ⟨hb1, hb2⟩ := baseConfidence_bounds post
  unfold mathMin
  split_ifs <;> constructor <;> linarith

/-- Decomposition of the mention loop: anything it returns is either an
input signal or a mention signal whose token no input signal carries. -/
theorem mentionFold_mem (post : Post) :
    ∀ (caps : List String) (sigs : List TradingSignal) (x : TradingSignal),
      x ∈ caps.foldl (mentionStep post) sigs →
      x ∈ sigs ∨ (x.action = "buy" ∧ x.confidence = baseConfidence post * (7/10) ∧
        ∀ t ∈ sigs, t.token ≠ x.token) := by
  intro caps
  induction caps with
  | nil => exact fun sigs x hx => Or.inl hx
  | cons c cs ih =>
    intro sigs x hx
    have hx' := ih (mentionStep post sigs c) x hx
    unfold mentionStep at hx'
    by_cases hc : (c != "" && isKnownToken c &&
        !(sigs.any (fun s => s.token == cleanToken c))) = true
    · rw [if_pos hc] at hx'
      rcases hx' with hmem | ⟨hact, hconf, htok⟩
      · rcases List.mem_append.mp hmem with hmem1 | hmem1
        · exact Or.inl hmem1
        · have hxm : x = mentionSignal post c := by simpa using hmem1
          subst hxm
          refine Or.inr ⟨rfl, rfl, ?_⟩
          have hany := (Bool.and_eq_true_iff.mp hc).2
          intro t ht
          have h2 : sigs.any (fun s => s.token == cleanToken c) = false := by
            simpa using hany
          have h3 := List.any_eq_false.mp h2 t ht
          simpa [mentionSignal] using h3
      · exact Or.inr ⟨hact, hconf, fun t ht => htok t (List.mem_append_left _ ht)⟩
    · rw [if_neg hc] at hx'
      exact hx'

/-- Decomposition of parseSignalsFromPost: every returned signal is an
intent signal or a mention signal. -/
theorem parseSignalsFromPost_mem (post : Post) (s : TradingSignal)
    (h : s ∈ parseSignalsFromPost post) :
    s ∈ intentSignals post ∨ s.confidence = baseConfidence post * (7/10) := by
  unfold parseSignalsFromPost dedupByKey at h
  have h1 : s ∈ withMentionSignals post (intentSignals post) := by
    revert h
    generalize withMentionSignals post (intentSignals post) = l
    generalize ([] : List String) = seen
    intro h
    induction l generalizing seen with
    | nil => simp [dedupAux] at h
    | cons a rest ih =>
      unfold dedupAux at h
      by_cases hc : (seen.contains (sigKey a)) = true
      · rw [if_pos hc] at h
        exact List.mem_cons_of_mem a (ih _ h)
      · rw [if_neg hc] at h
        rcases List.mem_cons.mp h with h2 | h2
        · exact h2 ▸ List.mem_cons_self a rest
        · exact List.mem_cons_of_mem a (ih _ h2)
  rcases mentionFold_mem post _ _ s h1 with h2 | ⟨-, h2, -⟩
  · exact Or.inl h2
  · exact Or.inr h2

/-- dedupAux only keeps elements of its input. -/
theorem dedupAux_subset :
    ∀ (l : List TradingSignal) (seen : List String) (s : TradingSignal),
      s ∈ dedupAux seen l → s ∈ l := by
  intro l
  induction l with
  | nil => intro seen s h; simp [dedupAux] at h
  | cons a rest ih =>
    intro seen s h
    unfold dedupAux at h
    by_cases hc : (seen.contains (sigKey a)) = true
    · rw [if_pos hc] at h
      exact List.mem_cons_of_mem a (ih _ s h)
    · rw [if_neg hc] at h
      rcases List.mem_cons.mp h with h2 | h2
      · exact h2 ▸ List.mem_cons_self a rest
      · exact List.mem_cons_of_mem a (ih _ s h2)

/-- dedupAux never returns a signal whose key was already seen. -/
theorem dedupAux_not_seen :
    ∀ (l : List TradingSignal) (seen : List String) (s : TradingSignal),
      s ∈ dedupAux seen l → seen.contains (sigKey s) = false := by
  intro l
  induction l with
  | nil => intro seen s h; simp [dedupAux] at h
  | cons a rest ih =>
    intro seen s h
    unfold dedupAux at h
    by_cases hc : (seen.contains (sigKey a)) = true
    · rw [if_pos hc] at h
      exact ih _ s h
    · rw [if_neg hc] at h
      rcases List.mem_cons.mp h with h2 | h2
      · subst h2; simpa using hc
      · have h3 := ih _ s h2
        simp only [List.contains_cons, Bool.or_eq_false_iff] at h3
        exact h3.2

/-- dedupAux keeps, for each key, exactly the first occurrence. -/
theorem dedupAux_first :
    ∀ (l : List TradingSignal) (seen : List String) (s : TradingSignal),
      s ∈ dedupAux seen l → l.find? (fun x => sigKey x == sigKey s) = some s := by
  intro l
  induction l with
  | nil => intro seen s h; simp [dedupAux] at h
  | cons a rest ih =>
    intro seen s h
    unfold dedupAux at h
    by_cases hc : (seen.contains (sigKey a)) = true
    · rw [if_pos hc] at h
      have hne : (sigKey a == sigKey s) = false := by
        have hs := dedupAux_not_seen rest seen s h
        by_contra hx
        simp only [Bool.not_eq_false, beq_iff_eq] at hx
        rw [hx] at hc
        rw [hc] at hs
        exact Bool.true_eq_false.mp hs
      rw [List.find?_cons_of_neg _ (by simp [hne] : ¬ _ = true)]
      exact ih _ s h
    · rw [if_neg hc] at h
      rcases List.mem_cons.mp h with h2 | h2
      · subst h2
        exact List.find?_cons_of_pos _ (by simp)
      · have hs := dedupAux_not_seen rest (sigKey a :: seen) s h2
        simp only [List.contains_cons, Bool.or_eq_false_iff, beq_eq_false_iff_ne] at hs
        have hne : (sigKey a == sigKey s) = false := by
          simp only [beq_eq_false_iff_ne]
          exact fun hx => hs.1 hx.symm
        rw [List.find?_cons_of_neg _ (by simp [hne] : ¬ _ = true)]
        exact ih _ s h2

/-- dedupAux output has pairwise distinct keys. -/
theorem dedupAux_pairwise :
    ∀ (l : List TradingSignal) (seen : List String),
      (dedupAux seen l).Pairwise (fun a b => sigKey a ≠ sigKey b) := by
  intro l
  induction l with
  | nil => intro seen; simp [dedupAux]
  | cons a rest ih =>
    intro seen
    unfold dedupAux
    by_cases hc : (seen.contains (sigKey a)) = true
    · rw [if_pos hc]; exact ih _
    · rw [if_neg hc]
      refine List.Pairwise.cons ?_ (ih _)
      intro b hb
      have hs := dedupAux_not_seen rest (sigKey a :: seen) b hb
      simp only [List.contains_cons, Bool.or_eq_false_iff, beq_eq_false_iff_ne] at hs
      exact fun hx => hs.1 hx.symm

/-- mapSet stores the value at the key. -/
theorem mapGet_mapSet_self :
    ∀ (m : List (String × TradingSignal)) (k : String) (v : TradingSignal),
      mapGet (mapSet m k v) k = some v := by
  intro m
  induction m with
  | nil => intro k v; simp [mapSet, mapGet]
  | cons kv rest ih =>
    intro k v
    unfold mapSet
    by_cases hc : (kv.1 == k) = true
    · rw [if_pos hc]; simp [mapGet]
    · rw [if_neg hc]
      unfold mapGet
      rw [if_neg hc]
      exact ih k v

/-- mapSet leaves other keys unchanged. -/
theorem mapGet_mapSet_ne :
    ∀ (m : List (String × TradingSignal)) (k k2 : String) (v : TradingSignal),
      k2 ≠ k → mapGet (mapSet m k v) k2 = mapGet m k2 := by
  intro m
  induction m with
  | nil =>
    intro k k2 v hne
    simp [mapSet, mapGet, (by simpa using fun h => hne h.symm : ¬ (k == k2) = true)]
  | cons kv rest ih =>
    intro k k2 v hne
    unfold mapSet
    by_cases hc : (kv.1 == k) = true
    · rw [if_pos hc]
      unfold mapGet
      have h1 : (k == k2) = false := by simpa using fun h => hne h.symm
      have h2 : (kv.1 == k2) = false := by
        have := beq_iff_eq.mp hc
        simp [this, beq_eq_false_iff_ne]
        exact fun h => hne h.symm
      rw [if_neg (by simp [h1]), if_neg (by simp [h2])]
    · rw [if_neg hc]
      unfold mapGet
      by_cases h2 : (kv.1 == k2) = true
      · rw [if_pos h2, if_pos h2]
      · rw [if_neg h2, if_neg h2]
        exact ih k k2 v hne

/-- Elements of mapSet are the new binding or old elements. -/
theorem mapSet_mem :
    ∀ (m : List (String × TradingSignal)) (k : String) (v : TradingSignal)
      (kv : String × TradingSignal),
      kv ∈ mapSet m k v → kv = (k, v) ∨ kv ∈ m := by
  intro m
  induction m with
  | nil => intro k v kv h; simpa [mapSet] using h
  | cons a rest ih =>
    intro k v kv h
    unfold mapSet at h
    by_cases hc : (a.1 == k) = true
    · rw [if_pos hc] at h
      rcases List.mem_cons.mp h with h2 | h2
      · exact Or.inl h2
      · exact Or.inr (List.mem_cons_of_mem a h2)
    · rw [if_neg hc] at h
      rcases List.mem_cons.mp h with h2 | h2
      · exact Or.inr (h2 ▸ List.mem_cons_self a rest)
      · rcases ih k v kv h2 with h3 | h3
        · exact Or.inl h3
        · exact Or.inr (List.mem_cons_of_mem a h3)

/-- mapSet preserves pairwise-distinct keys. -/
theorem mapSet_pairwise :
    ∀ (m : List (String × TradingSignal)) (k : String) (v : TradingSignal),
      m.Pairwise (fun a b => a.1 ≠ b.1) →
      (mapSet m k v).Pairwise (fun a b => a.1 ≠ b.1) := by
  intro m
  induction m with
  | nil => intro k v _; simp [mapSet]
  | cons a rest ih =>
    intro k v hp
    obtain ⟨ha, hrest⟩ := List.pairwise_cons.mp hp
    unfold mapSet
    by_cases hc : (a.1 == k) = true
    · rw [if_pos hc]
      refine List.Pairwise.cons ?_ hrest
      intro b hb
      have := beq_iff_eq.mp hc
      exact this ▸ ha b hb
    · rw [if_neg hc]
      refine List.Pairwise.cons ?_ (ih k v hrest)
      intro b hb
      rcases mapSet_mem rest k v b hb with h2 | h2
      · rw [h2]
        simpa using hc
      · exact ha b h2

/-- A stored binding is retrieved by mapGet when keys are distinct. -/
theorem mem_mapGet :
    ∀ (m : List (String × TradingSignal)) (kv : String × TradingSignal),
      m.Pairwise (fun a b => a.1 ≠ b.1) → kv ∈ m → mapGet m kv.1 = some kv.2 := by
  intro m
  induction m with
  | nil => intro kv _ h; simp at h
  | cons a rest ih =>
    intro kv hp hm
    obtain ⟨ha, hrest⟩ := List.pairwise_cons.mp hp
    rcases List.mem_cons.mp hm with h2 | h2
    · subst h2; simp [mapGet]
    · unfold mapGet
      have hne : (a.1 == kv.1) = false := by
        simp only [beq_eq_false_iff_ne]
        exact ha kv h2
      rw [if_neg (by simp [hne])]
      exact ih kv hrest h2

/-- mapGet only returns stored bindings. -/
theorem mapGet_mem :
    ∀ (m : List (String × TradingSignal)) (k : String) (v : TradingSignal),
      mapGet m k = some v → (k, v) ∈ m := by
  intro m
  induction m with
  | nil => intro k v h; simp [mapGet] at h
  | cons a rest ih =>
    intro k v h
    unfold mapGet at h
    by_cases hc : (a.1 == k) = true
    · rw [if_pos hc] at h
      have h2 := beq_iff_eq.mp hc
      have h3 : a = (k, v) := by
        obtain ⟨a1, a2⟩ := a
        simp only [Option.some.injEq] at h
        simp_all
      exact h3 ▸ List.mem_cons_self a rest
    · rw [if_neg hc] at h
      exact List.mem_cons_of_mem a (ih k v h)

/-- After an upsert, the key of the signal holds a binding at least as confident
as the signal. -/
theorem upsert_get_self (m : List (String × TradingSignal)) (s : TradingSignal) :
    ∃ v, mapGet (upsertByConfidence m s) (sigKey s) = some v ∧
      s.confidence ≤ v.confidence ∧ (mapGet m (sigKey s) = some v ∨ v = s) := by
  unfold upsertByConfidence
  cases hg : mapGet m (sigKey s) with
  | none => exact ⟨s, mapGet_mapSet_self m (sigKey s) s, le_refl _, Or.inr rfl⟩
  | some existing =>
    dsimp only
    by_cases hc : s.confidence > existing.confidence
    · rw [if_pos hc]
      exact ⟨s, mapGet_mapSet_self m (sigKey s) s, le_refl _, Or.inr rfl⟩
    · rw [if_neg hc]
      exact ⟨existing, hg, le_of_not_lt hc, Or.inl rfl⟩

/-- Upsert leaves other keys unchanged. -/
theorem upsert_get_ne (m : List (String × TradingSignal)) (s : TradingSignal)
    (k : String) (hne : k ≠ sigKey s) :
    mapGet (upsertByConfidence m s) k = mapGet m k := by
  unfold upsertByConfidence
  cases hg : mapGet m (sigKey s) with
  | none => exact mapGet_mapSet_ne m (sigKey s) k s hne
  | some existing =>
    dsimp only
    by_cases hc : s.confidence > existing.confidence
    · rw [if_pos hc]
      exact mapGet_mapSet_ne m (sigKey s) k s hne
    · rw [if_neg hc]

/-- Upsert never lowers the confidence stored at any key. -/
theorem upsert_get_mono (m : List (String × TradingSignal)) (s : TradingSignal)
    (k : String) (v : TradingSignal) (h : mapGet m k = some v) :
    ∃ w, mapGet (upsertByConfidence m s) k = some w ∧ v.confidence ≤ w.confidence := by
  by_cases hk : k = sigKey s
  · subst hk
    unfold upsertByConfidence
    rw [h]
    dsimp only
    by_cases hc : s.confidence > v.confidence
    · rw [if_pos hc]
      exact ⟨s, mapGet_mapSet_self m (sigKey s) s, le_of_lt hc⟩
    · rw [if_neg hc]
      exact ⟨v, h, le_refl _⟩
  · exact ⟨v, (upsert_get_ne m s k hk).trans h, le_refl _⟩

/-- Elements of an upsert are the upserted binding or old elements. -/
theorem upsert_mem (m : List (String × TradingSignal)) (s : TradingSignal)
    (kv : String × TradingSignal) (h : kv ∈ upsertByConfidence m s) :
    kv = (sigKey s, s) ∨ kv ∈ m := by
  unfold upsertByConfidence at h
  cases hg : mapGet m (sigKey s) with
  | none =>
    rw [hg] at h
    exact mapSet_mem m (sigKey s) s kv h
  | some existing =>
    rw [hg] at h
    dsimp only at h
    by_cases hc : s.confidence > existing.confidence
    · rw [if_pos hc] at h
      exact mapSet_mem m (sigKey s) s kv h
    · rw [if_neg hc] at h
      exact Or.inr h

/-- Upsert preserves pairwise-distinct keys. -/
theorem upsert_pairwise (m : List (String × TradingSignal)) (s : TradingSignal)
    (h : m.Pairwise (fun a b => a.1 ≠ b.1)) :
    (upsertByConfidence m s).Pairwise (fun a b => a.1 ≠ b.1) := by
  unfold upsertByConfidence
  cases hg : mapGet m (sigKey s) with
  | none => exact mapSet_pairwise m (sigKey s) s h
  | some existing =>
    dsimp only
    by_cases hc : s.confidence > existing.confidence
    · rw [if_pos hc]
      exact mapSet_pairwise m (sigKey s) s h
    · rw [if_neg hc]
      exact h

/-- Upsert preserves key consistency (each binding carries the sigKey of its
signal). -/
theorem upsert_keysOk (m : List (String × TradingSignal)) (s : TradingSignal)
    (h : ∀ kv ∈ m, kv.1 = sigKey kv.2) :
    ∀ kv ∈ upsertByConfidence m s, kv.1 = sigKey kv.2 := by
  intro kv hm
  rcases upsert_mem m s kv hm with h2 | h2
  · rw [h2]
  · exact h kv h2

/-- Folding upserts never lowers the confidence stored at a key. -/
theorem fold_get_mono :
    ∀ (l : List TradingSignal) (m : List (String × TradingSignal)) (k : String)
      (v : TradingSignal), mapGet m k = some v →
      ∃ w, mapGet (l.foldl upsertByConfidence m) k = some w ∧
        v.confidence ≤ w.confidence := by
  intro l
  induction l with
  | nil => intro m k v h; exact ⟨v, h, le_refl _⟩
  | cons s rest ih =>
    intro m k v h
    obtain ⟨w1, hw1, hle1⟩ := upsert_get_mono m s k v h
    obtain ⟨w2, hw2, hle2⟩ := ih (upsertByConfidence m s) k w1 hw1
    exact ⟨w2, hw2, le_trans hle1 hle2⟩

/-- After folding, the key of every processed signal holds a binding at least as
confident as that signal. -/
theorem fold_get_dominates :
    ∀ (l : List TradingSignal) (m : List (String × TradingSignal)) (s : TradingSignal),
      s ∈ l →
      ∃ w, mapGet (l.foldl upsertByConfidence m) (sigKey s) = some w ∧
        s.confidence ≤ w.confidence := by
  intro l
  induction l with
  | nil => intro m s h; simp at h
  | cons a rest ih =>
    intro m s h
    rcases List.mem_cons.mp h with h2 | h2
    · subst h2
      obtain ⟨v, hv, hle, -⟩ := upsert_get_self m s
      obtain ⟨w, hw, hle2⟩ := fold_get_mono rest (upsertByConfidence m s) (sigKey s) v hv
      exact ⟨w, hw, le_trans hle hle2⟩
    · exact ih (upsertByConfidence m a) s h2

/-- Every binding of the fold comes from the processed signals or the
initial map. -/
theorem fold_mem :
    ∀ (l : List TradingSignal) (m : List (String × TradingSignal))
      (kv : String × TradingSignal),
      kv ∈ l.foldl upsertByConfidence m → (kv.1 = sigKey kv.2 ∧ kv.2 ∈ l) ∨ kv ∈ m := by
  intro l
  induction l with
  | nil => intro m kv h; exact Or.inr h
  | cons a rest ih =>
    intro m kv h
    rcases ih (upsertByConfidence m a) kv h with h2 | h2
    · exact Or.inl ⟨h2.1, List.mem_cons_of_mem a h2.2⟩
    · rcases upsert_mem m a kv h2 with h3 | h3
      · subst h3
        exact Or.inl ⟨rfl, List.mem_cons_self a rest⟩
      · exact Or.inr h3

/-- The fold preserves pairwise-distinct keys. -/
theorem fold_pairwise :
    ∀ (l : List TradingSignal) (m : List (String × TradingSignal)),
      m.Pairwise (fun a b => a.1 ≠ b.1) →
      (l.foldl upsertByConfidence m).Pairwise (fun a b => a.1 ≠ b.1) := by
  intro l
  induction l with
  | nil => intro m h; exact h
  | cons a rest ih =>
    intro m h
    exact ih (upsertByConfidence m a) (upsert_pairwise m a h)

/-- insertDesc is a permutation of consing. -/
theorem insertDesc_perm (s : TradingSignal) :
    ∀ (l : List TradingSignal), (insertDesc s l).Perm (s :: l) := by
  intro l
  induction l with
  | nil => simp [insertDesc]
  | cons t ts ih =>
    unfold insertDesc
    by_cases hc : s.confidence > t.confidence
    · rw [if_pos hc]
    · rw [if_neg hc]
      exact (List.Perm.cons t ih).trans (List.Perm.swap s t ts)

/-- The confidence sort is a permutation. -/
theorem sortByConfidenceDesc_perm (l : List TradingSignal) :
    (sortByConfidenceDesc l).Perm l := by
  suffices h : ∀ (l acc : List TradingSignal),
      (l.foldl (fun acc s => insertDesc s acc) acc).Perm (acc ++ l) by
    simpa using h l []
  intro l
  induction l with
  | nil => intro acc; simp
  | cons s rest ih =>
    intro acc
    refine (ih (insertDesc s acc)).trans ?_
    have h1 : (insertDesc s acc ++ rest).Perm ((s :: acc) ++ rest) :=
      (insertDesc_perm s acc).append_right rest
    refine h1.trans ?_
    simp only [List.cons_append]
    exact (List.perm_middle).symm

/-- insertDesc preserves descending order by confidence. -/
theorem insertDesc_sorted (s : TradingSignal) :
    ∀ (l : List TradingSignal),
      l.Pairwise (fun a b => b.confidence ≤ a.confidence) →
      (insertDesc s l).Pairwise (fun a b => b.confidence ≤ a.confidence) := by
  intro l
  induction l with
  | nil => intro _; simp [insertDesc]
  | cons t ts ih =>
    intro hp
    obtain ⟨ht, hts⟩ := List.pairwise_cons.mp hp
    unfold insertDesc
    by_cases hc : s.confidence > t.confidence
    · rw [if_pos hc]
      refine List.Pairwise.cons ?_ hp
      intro b hb
      rcases List.mem_cons.mp hb with h2 | h2
      · exact h2 ▸ le_of_lt hc
      · exact le_trans (ht b h2) (le_of_lt hc)
    · rw [if_neg hc]
      refine List.Pairwise.cons ?_ (ih hts)
      intro b hb
      have hb2 := (insertDesc_perm s ts).mem_iff.mp hb
      rcases List.mem_cons.mp hb2 with h2 | h2
      · exact h2 ▸ le_of_not_lt hc
      · exact ht b h2

/-- The confidence sort returns a descending list. -/
theorem sortByConfidenceDesc_sorted (l : List TradingSignal) :
    (sortByConfidenceDesc l).Pairwise (fun a b => b.confidence ≤ a.confidence) := by
  suffices h : ∀ (l acc : List TradingSignal),
      acc.Pairwise (fun a b => b.confidence ≤ a.confidence) →
      (l.foldl (fun acc s => insertDesc s acc) acc).Pairwise
        (fun a b => b.confidence ≤ a.confidence) by
    exact h l [] (by simp)
  intro l
  induction l with
  | nil => intro acc h; exact h
  | cons s rest ih =>
    intro acc h
    exact ih (insertDesc s acc) (insertDesc_sorted s acc h)

/-- C5.  One scan never returns two signals with the same (action, token)
key: the signals of each post are deduplicated keeping the first occurrence per
key, the whole batch is deduplicated keeping a highest-confidence instance
per key (every processed key stays represented), and the returned sequence
is sorted descending by confidence. -/
theorem extractSignals_dedup_and_sort :
    ∀ (posts : List Post),
      ((parseSignalsFromFeed posts).Pairwise (fun a b => sigKey a ≠ sigKey b)) ∧
      (∀ t ∈ parseSignalsFromFeed posts,
        t ∈ posts.flatMap parseSignalsFromPost ∧
        ∀ s ∈ posts.flatMap parseSignalsFromPost,
          sigKey s = sigKey t → s.confidence ≤ t.confidence) ∧
      (∀ s ∈ posts.flatMap parseSignalsFromPost,
        ∃ t ∈ parseSignalsFromFeed posts, sigKey t = sigKey s) ∧
      ((parseSignalsFromFeed posts).Pairwise (fun a b => b.confidence ≤ a.confidence)) ∧
      (∀ (post : Post),
        (parseSignalsFromPost post).Pairwise (fun a b => sigKey a ≠ sigKey b) ∧
        ∀ s ∈ parseSignalsFromPost post,
          (withMentionSignals post (intentSignals post)).find?
            (fun x => sigKey x == sigKey s) = some s) := by
  intro posts
  have hfeed : parseSignalsFromFeed posts =
      sortByConfidenceDesc
        (((posts.flatMap parseSignalsFromPost).foldl upsertByConfidence []).map
          Prod.snd) := rfl
  have hpw : ((posts.flatMap parseSignalsFromPost).foldl
      upsertByConfidence []).Pairwise (fun a b => a.1 ≠ b.1) :=
    fold_pairwise _ [] (by simp)
  have hkOk : ∀ kv ∈ (posts.flatMap parseSignalsFromPost).foldl upsertByConfidence [],
      kv.1 = sigKey kv.2 ∧ kv.2 ∈ posts.flatMap parseSignalsFromPost := by
    intro kv hkv
    rcases fold_mem _ [] kv hkv with h | h
    · exact h
    · simp at h
  have hperm := sortByConfidenceDesc_perm
    (((posts.flatMap parseSignalsFromPost).foldl upsertByConfidence []).map Prod.snd)
  refine ⟨?_, ?_, ?_, ?_, ?_⟩
  · rw [hfeed]
    rw [List.Perm.pairwise_iff (fun h he => h he.symm) hperm]
    rw [List.pairwise_map]
    refine hpw.imp_of_mem ?_
    intro a b ha hb hne
    rw [← (hkOk a ha).1, ← (hkOk b hb).1]
    exact hne
  · intro t ht
    rw [hfeed] at ht
    have ht2 := hperm.mem_iff.mp ht
    obtain ⟨kv, hkv, hkvt⟩ := List.mem_map.mp ht2
    obtain ⟨hk1, hk2⟩ := hkOk kv hkv
    subst hkvt
    refine ⟨hk2, ?_⟩
    intro s hs hkey
    obtain ⟨w, hw, hle⟩ := fold_get_dominates _ [] s hs
    have hget : mapGet ((posts.flatMap parseSignalsFromPost).foldl upsertByConfidence [])
        kv.1 = some kv.2 := mem_mapGet _ kv hpw hkv
    rw [hk1, ← hkey] at hget
    rw [hw] at hget
    injection hget with hgt
    rw [← hgt]
    exact hle
  · intro s hs
    obtain ⟨w, hw, -⟩ := fold_get_dominates _ [] s hs
    have hmem := mapGet_mem _ _ _ hw
    have hk := (hkOk (sigKey s, w) hmem).1
    refine ⟨w, ?_, hk.symm⟩
    rw [hfeed]
    exact hperm.mem_iff.mpr (List.mem_map.mpr ⟨(sigKey s, w), hmem, rfl⟩)
  · rw [hfeed]
    exact sortByConfidenceDesc_sorted _
  · intro post
    constructor
    · exact dedupAux_pairwise _ []
    · intro s hs
      exact dedupAux_first _ [] s hs

/-- Concrete post for the C5 witness. -/
def c5Post : Post :=
  { id := "9", title := "buy $ETH and sell $BTC", content := none,
    authorName := "dan", upvotes := 5, downvotes := none }

/-- C5 witness: the dedup/sort properties applied at a concrete one-post
batch. -/
theorem extractSignals_dedup_and_sort_witness :
    (parseSignalsFromFeed [c5Post]).Pairwise (fun a b => sigKey a ≠ sigKey b) :=
  (extractSignals_dedup_and_sort [c5Post]).1

/-- Example post of §8 of the spec: upvotes 20, downvotes 2. -/
def c4Post : Post :=
  { id := "1", title := "buying $PEPE, looks ready to pump",
    content := none, authorName := "alice", upvotes := 20, downvotes := some 2 }

/-- C4.  The confidence of every intent-pattern signal equals
`min(0.95, clamp(0.3 + (upvotes - downvotes)/50, 0.1, 0.9) + b)` with
b = 0.2 exactly when the cleaned token is in the known-token set; and the
example post of the spec yields exactly one Buy signal for PEPE with confidence
exactly 0.86 (= 43/50). -/
theorem intent_confidence_formula_and_pepe_example :
    (∀ (post : Post) (s : TradingSignal), s ∈ intentSignals post →
      s.confidence = mathMin (95/100)
        (mathMin (9/10) (mathMax (1/10)
            (3/10 + ((post.upvotes - post.downvotes.getD 0 : Int) : ℚ) / 50)) +
          (if KNOWN_TOKENS.contains s.token = true then 2/10 else 0))) ∧
    (parseSignalsFromPost c4Post).map (fun s => (s.action, s.token, s.confidence)) =
      [("buy", "PEPE", 43/50)] ∧
    (43 : ℚ)/50 = 86/100 := by
  refine ⟨?_, by with_unfolding_all decide, by norm_num⟩
  intro post s h
  exact intentSignals_confidence post s h

/-- C4 witness: the formula applied at the signal of the example post. -/
theorem intent_confidence_formula_witness :
    (mkIntentSignal c4Post "buy" "$PEPE").confidence = mathMin (95/100)
      (mathMin (9/10) (mathMax (1/10)
          (3/10 + ((c4Post.upvotes - c4Post.downvotes.getD 0 : Int) : ℚ) / 50)) +
        (if KNOWN_TOKENS.contains (mkIntentSignal c4Post "buy" "$PEPE").token = true
          then 2/10 else 0)) :=
  intent_confidence_formula_and_pepe_example.1 c4Post
    (mkIntentSignal c4Post "buy" "$PEPE") (by with_unfolding_all decide)

/-- Concrete post for the C3 counterexample: a bare known-token mention on
a heavily downvoted post. -/
def c3Post : Post :=
  { id := "2", title := "$PEPE", content := none,
    authorName := "bob", upvotes := 0, downvotes := some 10 }

/-- C3 counterexample.  The confidence of a mention-only signal is
`0.7 × baseConfidence`, which falls below the claimed floor of 0.1: the
post "$PEPE" with 0 upvotes and 10 downvotes yields a signal with
confidence exactly 0.07 < 0.1, so "confidence in the closed interval
[0.1, 0.95]" is false. -/
theorem mention_confidence_below_claimed_floor :
    (parseSignalsFromFeed [c3Post]).map (fun s => s.confidence) = [7/100] ∧
    ¬ (1/10 : ℚ) ≤ 7/100 := by
  refine ⟨by with_unfolding_all decide, by norm_num⟩

/-- C3 amended.  The confidence of every extracted signal lies in [0.07, 0.95]:
intent-pattern signals lie in [0.1, 0.95], while mention-only signals equal
0.7 × baseConfidence ∈ [0.07, 0.63] and can fall below 0.1.  For equal
upvote and downvote counts, the confidence of a known-token intent signal is at
least that of an unknown-token intent signal. -/
theorem signal_confidence_range :
    (∀ (post : Post) (s : TradingSignal), s ∈ parseSignalsFromPost post →
      7/100 ≤ s.confidence ∧ s.confidence ≤ 95/100) ∧
    (∀ (post : Post) (s : TradingSignal), s ∈ intentSignals post →
      1/10 ≤ s.confidence ∧ s.confidence ≤ 95/100) ∧
    (∀ (p q : Post) (s t : TradingSignal),
      p.upvotes = q.upvotes → p.downvotes.getD 0 = q.downvotes.getD 0 →
      s ∈ intentSignals p → t ∈ intentSignals q →
      KNOWN_TOKENS.contains s.token = true → KNOWN_TOKENS.contains t.token = false →
      t.confidence ≤ s.confidence) := by
  refine ⟨?_, ?_, ?_⟩
  · intro post s h
    obtain ⟨hb1, hb2⟩ := baseConfidence_bounds post
    rcases parseSignalsFromPost_mem post s h with h2 | h2
    · obtain ⟨hl, hr⟩ := intentSignals_confidence_bounds post s h2
      exact ⟨le_trans (by norm_num) hl, hr⟩
    · rw [h2]
      constructor
      · nlinarith
      · nlinarith
  · exact intentSignals_confidence_bounds
  · intro p q s t hup hdown hs ht hks hkt
    have hbase : baseConfidence p = baseConfidence q := by
      unfold baseConfidence
      rw [hup, hdown]
    rw [intentSignals_confidence p s hs, intentSignals_confidence q t ht, hks, hkt,
      if_pos rfl, hbase]
    simp only [Bool.false_eq_true, if_false]
    unfold mathMin
    obtain ⟨hb1, hb2⟩ := baseConfidence_bounds q
    split_ifs <;> linarith

/-- C3 witness: the amended bounds applied at the mention-only signal of the
counterexample post. -/
theorem signal_confidence_range_witness :
    7/100 ≤ (mentionSignal c3Post "PEPE").confidence ∧
    (mentionSignal c3Post "PEPE").confidence ≤ 95/100 :=
  signal_confidence_range.1 c3Post (mentionSignal c3Post "PEPE")
    (by with_unfolding_all decide)

/-- Concrete post for C10: a sell-intent mention of a known token. -/
def c10Post : Post :=
  { id := "3", title := "dumping $PEPE", content := none,
    authorName := "carol", upvotes := 0, downvotes := none }

/-- C10.  The mention-only branch adds its default buy signal only when no
signal with the same token — of either action — was already extracted from
the post: every signal the mention loop adds has a token distinct from
the token of every intent signal (the duplicate check compares tokens only,
ignoring the action).  In particular the sell-intent signal for PEPE in
"dumping $PEPE" suppresses the mention-only buy signal for PEPE: the post
yields only the sell signal. -/
theorem mention_only_suppressed_by_either_action :
    (∀ (post : Post) (x : TradingSignal),
      x ∈ withMentionSignals post (intentSignals post) →
      x ∈ intentSignals post ∨
        (x.action = "buy" ∧ x.confidence = baseConfidence post * (7/10) ∧
          ∀ t ∈ intentSignals post, t.token ≠ x.token)) ∧
    (parseSignalsFromPost c10Post).map (fun s => (s.action, s.token)) =
      [("sell", "PEPE")] := by
  refine ⟨?_, by with_unfolding_all decide⟩
  intro post x hx
  exact mentionFold_mem post _ (intentSignals post) x hx

/-- C10 witness: the suppression property applied at the sell signal of the concrete
post. -/
theorem mention_only_suppressed_witness :
    mkIntentSignal c10Post "sell" "$PEPE" ∈ intentSignals c10Post ∨
      ((mkIntentSignal c10Post "sell" "$PEPE").action = "buy" ∧
        (mkIntentSignal c10Post "sell" "$PEPE").confidence =
          baseConfidence c10Post * (7/10) ∧
        ∀ t ∈ intentSignals c10Post,
          t.token ≠ (mkIntentSignal c10Post "sell" "$PEPE").token) :=
  mention_only_suppressed_by_either_action.1 c10Post
    (mkIntentSignal c10Post "sell" "$PEPE") (by with_unfolding_all decide)
